import Mathlib

/-!
# Forecast workflow of the Fintech dashboard

A shallow embedding of `frontend/src/components/Forecasts.js`:

* the JavaScript values the component handles (`JVal`), with truthiness, `||`,
  property reads and optional chaining;
* the two platform functions the catalog loader relies on: the global regular
  expression replace `data.replace(/:\s*NaN/g, ': null')` and `JSON.parse`;
* the component state (`State`) and its event handlers, each as a function from
  the state captured by the handler and the outcomes of the requests it awaits
  to the final state together with the requests it issued.

Numbers are kept as exact decimals (IEEE rounding is not modelled); strings are
sequences of Unicode scalar values.  Handlers run to completion one at a time.
-/

namespace Fintech

/-! ## JavaScript values -/

/-- A JavaScript number: a signed decimal `mant * 10 ^ exp`, `NaN`, or an infinity. -/
inductive JNum where
  | fin (neg : Bool) (mant : Nat) (exp : Int)
  | nan
  | inf (neg : Bool)
  deriving DecidableEq, Repr

/-- The number of a natural number. -/
def JNum.ofNat (n : Nat) : JNum := .fin false n 0

/-- A JavaScript value as it can arrive in, or be built from, a JSON payload. Objects are
property lists in insertion order with distinct keys. -/
inductive JVal where
  | undefined
  | null
  | bool (b : Bool)
  | num (n : JNum)
  | str (s : String)
  | arr (xs : List JVal)
  | obj (kvs : List (String × JVal))
  deriving Repr

/-- What a `catch (e)` clause of the component receives: an error object with its `message`
and, for a request the server answered with an error status, the body `e.response.data`
(`response = none` when `e.response` is undefined). -/
structure JsError where
  message : String
  response : Option JVal := none
  deriving Repr

namespace JVal

/-- ToBoolean. -/
def truthy : JVal → Bool
  | undefined => false
  | null => false
  | bool b => b
  | num (.fin _ m _) => m != 0
  | num .nan => false
  | num (.inf _) => true
  | str s => s != ""
  | arr _ => true
  | obj _ => true

/-- The expression `a || b`. -/
def or (a b : JVal) : JVal := if a.truthy then a else b

/-- The test `v === undefined || v === null`. -/
def nullish : JVal → Bool
  | undefined => true
  | null => true
  | _ => false

/-- The expression `typeof v === 'string'`. -/
def isString : JVal → Bool
  | str _ => true
  | _ => false

/-- The expression `Array.isArray(v)`. -/
def isArray : JVal → Bool
  | arr _ => true
  | _ => false

/-- The expression `a === s` for a string `s`. -/
def strictEqStr : JVal → String → Bool
  | str t, s => t == s
  | _, _ => false

/-- Length of a string in UTF-16 code units. -/
def utf16Length (s : String) : Nat :=
  (s.data.map fun c => if c.toNat < 0x10000 then 1 else 2).sum

/-- Reading property `k` of a value that is neither `null` nor `undefined`: own data
properties of objects, and `length` of arrays and strings (the component reads no index and
no inherited property). -/
def field : JVal → String → JVal
  | obj kvs, k => (kvs.lookup k).getD undefined
  | arr xs, k => if k == "length" then num (.ofNat xs.length) else undefined
  | str s, k => if k == "length" then num (.ofNat (utf16Length s)) else undefined
  | _, _ => undefined

/-- The TypeError raised by reading a property of `null` or `undefined`. -/
def readError (v : JVal) (k : String) : JsError :=
  { message := "Cannot read properties of " ++
      (match v with | null => "null" | _ => "undefined") ++ " (reading \x27" ++ k ++ "\x27)" }

/-- The expression `v.k`: throws on `null` and `undefined`. -/
def prop (v : JVal) (k : String) : Except JsError JVal :=
  if v.nullish then .error (readError v k) else .ok (v.field k)

/-- The expression `v?.k`. -/
def propOpt (v : JVal) (k : String) : JVal :=
  if v.nullish then undefined else v.field k

end JVal

/-! ## The NaN rewrite `data.replace(/:\s*NaN/g, ': null')` -/

/-- The characters matched by `\s`: WhiteSpace and LineTerminator of ECMAScript. -/
def isRegexSpace (c : Char) : Bool :=
  let n := c.toNat
  n == 0x09 || n == 0x0A || n == 0x0B || n == 0x0C || n == 0x0D || n == 0x20 || n == 0xA0 ||
  n == 0x1680 || (0x2000 ≤ n && n ≤ 0x200A) || n == 0x2028 || n == 0x2029 || n == 0x202F ||
  n == 0x205F || n == 0x3000 || n == 0xFEFF

/-- Matching `aN` at the start of the input: the rest of the input after it. -/
def matchAN : List Char → Option (List Char)
  | a :: b :: rest => if a = 'a' ∧ b = 'N' then some rest else none
  | _ => none

/-- Matching `\s*NaN` at the start of the input (the text right after a colon): the rest of the
input after the match, if there is one. -/
def matchNaN : List Char → Option (List Char)
  | [] => none
  | c :: cs =>
    if isRegexSpace c then matchNaN cs
    else if c = 'N' then matchAN cs
    else none

/-- The left-to-right scan of the global replace: at a colon where `\s*NaN` matches, emit
`: null` and go on after the match; otherwise copy one character. The fuel bounds the number of
scan steps. -/
def replaceAux : Nat → List Char → List Char
  | 0, cs => cs
  | _ + 1, [] => []
  | n + 1, c :: cs =>
    if c = ':' then
      match matchNaN cs with
      | some rest => ':' :: ' ' :: 'n' :: 'u' :: 'l' :: 'l' :: replaceAux n rest
      | none => c :: replaceAux n cs
    else c :: replaceAux n cs

/-- The rewrite on character lists; a scan takes at most one step per character. -/
def replaceNaNChars (cs : List Char) : List Char := replaceAux cs.length cs

/-- The expression `data.replace(/:\s*NaN/g, ': null')`. -/
def replaceNaN (s : String) : String := ⟨replaceNaNChars s.data⟩

/-! ## `JSON.parse`

The text is cut into tokens by a character automaton and the tokens are assembled by a
pushdown automaton. With `lenient = false` this is the JSON grammar of ECMA-404, the grammar of
`JSON.parse`. With `lenient = true` it is the grammar of the repaired payloads: the bare token
`NaN` is also accepted as the value right after a colon and read as `null`, and string
literals in which `:\s*NaN` occurs are excluded. -/

/-- A JSON token; `atom` carries a literal, a number or a string. -/
inductive Token where
  | lbrack | rbrack | lbrace | rbrace | comma | colon
  | atom (v : JVal)

/-- The state of the tokenizer. -/
inductive Mode where
  /-- between tokens -/
  | start
  /-- between tokens, only whitespace read since a colon -/
  | afterColon
  /-- inside a keyword: `todo` is still expected, then `v` is emitted -/
  | word (todo : List Char) (v : JVal)
  /-- inside a number, `acc` read so far -/
  | number (acc : List Char)
  /-- inside a string, `acc` the UTF-16 code units read so far -/
  | string (acc : List Nat)
  /-- inside a string, right after a backslash -/
  | escape (acc : List Nat)
  /-- inside a `\u` escape, `ds` the hex digits read so far -/
  | hex (acc : List Nat) (ds : List Nat)

/-- JSON whitespace. -/
def isJsonSpace (c : Char) : Bool :=
  c == ' ' || c == '\t' || c == '\n' || c == '\r'

/-- A decimal digit. -/
def isDigit (c : Char) : Bool := '0'.toNat ≤ c.toNat && c.toNat ≤ '9'.toNat

/-- The characters a number literal is made of. -/
def isNumberChar (c : Char) : Bool :=
  isDigit c || c == '-' || c == '+' || c == '.' || c == 'e' || c == 'E'

/-- Value of a hexadecimal digit. -/
def hexVal (c : Char) : Option Nat :=
  if isDigit c then some (c.toNat - '0'.toNat)
  else if 'a'.toNat ≤ c.toNat ∧ c.toNat ≤ 'f'.toNat then some (c.toNat - 'a'.toNat + 10)
  else if 'A'.toNat ≤ c.toNat ∧ c.toNat ≤ 'F'.toNat then some (c.toNat - 'A'.toNat + 10)
  else none

/-- The UTF-16 code units of a character. -/
def unitsOf (c : Char) : List Nat :=
  if c.toNat < 0x10000 then [c.toNat]
  else [0xD800 + (c.toNat - 0x10000) / 0x400, 0xDC00 + (c.toNat - 0x10000) % 0x400]

/-- Whether a code unit is a high (leading) surrogate. -/
def isHighSurrogate (u : Nat) : Bool := 0xD800 ≤ u && u ≤ 0xDBFF

/-- Whether a code unit is a low (trailing) surrogate. -/
def isLowSurrogate (u : Nat) : Bool := 0xDC00 ≤ u && u ≤ 0xDFFF

/-- The characters of a sequence of UTF-16 code units: a surrogate pair is one character, a
lone surrogate is read as U+FFFD. -/
def decodeUnits : List Nat → List Char
  | [] => []
  | [u] => [if isHighSurrogate u || isLowSurrogate u then Char.ofNat 0xFFFD else Char.ofNat u]
  | u :: v :: rest =>
    if isHighSurrogate u && isLowSurrogate v then
      Char.ofNat (0x10000 + (u - 0xD800) * 0x400 + (v - 0xDC00)) :: decodeUnits rest
    else
      (if isHighSurrogate u || isLowSurrogate u then Char.ofNat 0xFFFD else Char.ofNat u)
        :: decodeUnits (v :: rest)

/-- The longest prefix of decimal digits, as digit values, and the rest. -/
def takeDigits : List Char → List Nat × List Char
  | [] => ([], [])
  | c :: cs =>
    if isDigit c then
      let r := takeDigits cs
      ((c.toNat - '0'.toNat) :: r.1, r.2)
    else ([], c :: cs)

/-- The natural number written by a list of decimal digits. -/
def digitsToNat (ds : List Nat) : Nat := ds.foldl (fun a d => 10 * a + d) 0

/-- The optional fraction of a number literal: its digits and the rest, `none` when a point is
followed by no digit. -/
def readFraction : List Char → Option (List Nat × List Char)
  | '.' :: cs =>
    let r := takeDigits cs
    if r.1.isEmpty then none else some r
  | cs => some ([], cs)

/-- The optional exponent of a number literal: its value and the rest, `none` when the
exponent mark is followed by no digit. -/
def readExponent : List Char → Option (Int × List Char)
  | [] => some (0, [])
  | c :: cs =>
    if c == 'e' || c == 'E' then
      match cs with
      | '+' :: ds =>
        let r := takeDigits ds
        if r.1.isEmpty then none else some (Int.ofNat (digitsToNat r.1), r.2)
      | '-' :: ds =>
        let r := takeDigits ds
        if r.1.isEmpty then none else some (- Int.ofNat (digitsToNat r.1), r.2)
      | ds =>
        let r := takeDigits ds
        if r.1.isEmpty then none else some (Int.ofNat (digitsToNat r.1), r.2)
    else some (0, c :: cs)

/-- The number written by a JSON number literal
`-? (0 | [1-9][0-9]*) (. [0-9]+)? ([eE] [+-]? [0-9]+)?`, `none` for any other text. -/
def readNumber (cs : List Char) : Option JNum :=
  let neg := cs.head? == some '-'
  let body := if neg then cs.tail else cs
  let ip := takeDigits body
  if ip.1.isEmpty || (ip.1.length > 1 && ip.1.head? == some 0) then none
  else
    match readFraction ip.2 with
    | none => none
    | some (fp, r) =>
      match readExponent r with
      | some (e, []) => some (.fin neg (digitsToNat (ip.1 ++ fp)) (e - Int.ofNat fp.length))
      | _ => none

/-- The number written by a list of hexadecimal digits. -/
def digitsToHex (ds : List Nat) : Nat := ds.foldl (fun a d => 16 * a + d) 0

/-- A step of the tokenizer between tokens. -/
def startStep (c : Char) : Option (List Token × Mode) :=
  if isJsonSpace c then some ([], .start)
  else if c == '[' then some ([.lbrack], .start)
  else if c == ']' then some ([.rbrack], .start)
  else if c == '{' then some ([.lbrace], .start)
  else if c == '}' then some ([.rbrace], .start)
  else if c == ',' then some ([.comma], .start)
  else if c == ':' then some ([.colon], .afterColon)
  else if c == '"' then some ([], .string [])
  else if c == 't' then some ([], .word ['r', 'u', 'e'] (.bool true))
  else if c == 'f' then some ([], .word ['a', 'l', 's', 'e'] (.bool false))
  else if c == 'n' then some ([], .word ['u', 'l', 'l'] .null)
  else if c == '-' || isDigit c then some ([], .number [c])
  else none

/-- A step right after a colon: whitespace is skipped, and the lenient grammar reads `NaN` as
the keyword for `null`. -/
def afterColonStep (lenient : Bool) (c : Char) : Option (List Token × Mode) :=
  if isJsonSpace c then some ([], .afterColon)
  else if c == 'N' then
    if lenient then some ([], .word ['a', 'N'] .null) else none
  else startStep c

/-- A step inside a keyword. -/
def wordStep (todo : List Char) (v : JVal) (c : Char) : Option (List Token × Mode) :=
  match todo with
  | [] => none
  | [e] => if c == e then some ([.atom v], .start) else none
  | e :: es => if c == e then some ([], .word es v) else none

/-- A step inside a number: the literal ends at the first character that cannot be part of a
number, and that character is read as one between tokens. -/
def numberStep (acc : List Char) (c : Char) : Option (List Token × Mode) :=
  if isNumberChar c then some ([], .number (acc ++ [c]))
  else
    match readNumber acc, startStep c with
    | some n, some (ts, m) => some (.atom (.num n) :: ts, m)
    | _, _ => none

/-- A step inside a string; `cs` is the text after `c`. The lenient grammar excludes a colon
at which `:\s*NaN` matches. -/
def stringStep (lenient : Bool) (acc : List Nat) (c : Char) (cs : List Char) :
    Option (List Token × Mode) :=
  if c == '"' then some ([.atom (.str ⟨decodeUnits acc⟩)], .start)
  else if c == '\\' then some ([], .escape acc)
  else if c.toNat < 0x20 then none
  else if lenient && c == ':' && (matchNaN cs).isSome then none
  else some ([], .string (acc ++ unitsOf c))

/-- A step right after a backslash in a string. -/
def escapeStep (acc : List Nat) (c : Char) : Option (List Token × Mode) :=
  if c == '"' then some ([], .string (acc ++ [0x22]))
  else if c == '\\' then some ([], .string (acc ++ [0x5C]))
  else if c == '/' then some ([], .string (acc ++ [0x2F]))
  else if c == 'b' then some ([], .string (acc ++ [0x08]))
  else if c == 'f' then some ([], .string (acc ++ [0x0C]))
  else if c == 'n' then some ([], .string (acc ++ [0x0A]))
  else if c == 'r' then some ([], .string (acc ++ [0x0D]))
  else if c == 't' then some ([], .string (acc ++ [0x09]))
  else if c == 'u' then some ([], .hex acc [])
  else none

/-- A step inside the four hexadecimal digits of a `\u` escape. -/
def hexStep (acc : List Nat) (ds : List Nat) (c : Char) : Option (List Token × Mode) :=
  match hexVal c with
  | none => none
  | some d =>
    if ds.length == 3 then some ([], .string (acc ++ [digitsToHex (ds ++ [d])]))
    else some ([], .hex acc (ds ++ [d]))

/-- A step of the tokenizer: the tokens completed by reading `c` and the next mode; `cs` is
the text after `c` (looked at only by the lenient grammar, inside strings). -/
def step (lenient : Bool) (m : Mode) (c : Char) (cs : List Char) : Option (List Token × Mode) :=
  match m with
  | .start => startStep c
  | .afterColon => afterColonStep lenient c
  | .word todo v => wordStep todo v c
  | .number acc => numberStep acc c
  | .string acc => stringStep lenient acc c cs
  | .escape acc => escapeStep acc c
  | .hex acc ds => hexStep acc ds c

/-- The tokens completed by the end of the text. -/
def finish : Mode → Option (List Token)
  | .start => some []
  | .afterColon => some []
  | .number acc => (readNumber acc).map fun n => [.atom (.num n)]
  | _ => none

/-- The tokens of a text read from mode `m`, `none` when the text is not made of JSON
tokens. -/
def tokens (lenient : Bool) : Mode → List Char → Option (List Token)
  | m, [] => finish m
  | m, c :: cs =>
    match step lenient m c cs with
    | none => none
    | some (out, m') =>
      match tokens lenient m' cs with
      | none => none
      | some ts => some (out ++ ts)

/-- Defining property `k` of an object under construction: an existing key keeps its place and
takes the new value. -/
def setProp : List (String × JVal) → String → JVal → List (String × JVal)
  | [], k, v => [(k, v)]
  | (k', v') :: rest, k, v => if k' == k then (k, v) :: rest else (k', v') :: setProp rest k v

/-- An enclosing array or object still open while a value is read. -/
inductive Frame where
  /-- inside an array, `acc` the elements read so far -/
  | arr (acc : List JVal)
  /-- inside an object, `acc` the members read so far, reading the value of `key` -/
  | obj (acc : List (String × JVal)) (key : String)

/-- What the grammar allows next. -/
inductive Expect where
  /-- a value -/
  | value
  /-- right after `[`: a value or `]` -/
  | valueOrEnd
  /-- right after `{`: a key or `}` -/
  | keyOrEnd
  /-- after a comma in an object with members `acc`: a key -/
  | key (acc : List (String × JVal))
  /-- after the key `k`: a colon -/
  | colon (acc : List (String × JVal)) (k : String)
  /-- the value `v` is complete: a comma, the end of the enclosing array or object, or the
  end of the text -/
  | after (v : JVal)

/-- The value written by a sequence of tokens, `none` when they do not form one JSON value. -/
def assemble : List Frame → Expect → List Token → Option JVal
  | [], .after v, [] => some v
  | _, _, [] => none
  | st, .value, t :: ts =>
    match t with
    | .atom v => assemble st (.after v) ts
    | .lbrack => assemble (.arr [] :: st) .valueOrEnd ts
    | .lbrace => assemble st .keyOrEnd ts
    | _ => none
  | st, .valueOrEnd, t :: ts =>
    match t, st with
    | .atom v, _ => assemble st (.after v) ts
    | .lbrack, _ => assemble (.arr [] :: st) .valueOrEnd ts
    | .lbrace, _ => assemble st .keyOrEnd ts
    | .rbrack, .arr acc :: st' => assemble st' (.after (.arr acc)) ts
    | _, _ => none
  | st, .keyOrEnd, t :: ts =>
    match t with
    | .atom (.str k) => assemble st (.colon [] k) ts
    | .rbrace => assemble st (.after (.obj [])) ts
    | _ => none
  | st, .key acc, t :: ts =>
    match t with
    | .atom (.str k) => assemble st (.colon acc k) ts
    | _ => none
  | st, .colon acc k, t :: ts =>
    match t with
    | .colon => assemble (.obj acc k :: st) .value ts
    | _ => none
  | st, .after v, t :: ts =>
    match st, t with
    | .arr acc :: st', .comma => assemble (.arr (acc ++ [v]) :: st') .value ts
    | .arr acc :: st', .rbrack => assemble st' (.after (.arr (acc ++ [v]))) ts
    | .obj acc k :: st', .comma => assemble st' (.key (setProp acc k v)) ts
    | .obj acc k :: st', .rbrace => assemble st' (.after (.obj (setProp acc k v))) ts
    | _, _ => none

/-- The value of a JSON text in either grammar. -/
def parseText (lenient : Bool) (s : String) : Option JVal :=
  match tokens lenient .start s.data with
  | none => none
  | some ts => assemble [] .value ts

/-- The call `JSON.parse(s)`: the parsed value, `none` when it throws a SyntaxError. -/
def jsonParse (s : String) : Option JVal := parseText false s

/-- The value of a JSON text in which object members may have the bare value `NaN`, read as
`null`, and in which no string literal contains `:\s*NaN`. -/
def parseNaNTolerant (s : String) : Option JVal := parseText true s

/-! ## ToString -/

/-- The decimal text of a non-zero number `0.d₁…d_k × 10 ^ n` with digits `ds`, as
Number::toString writes it: plain digits for `k ≤ n ≤ 21`, a decimal point inside for
`0 < n ≤ 21`, leading zeros for `-6 < n ≤ 0`, exponent form otherwise. -/
def decimalText (ds : List Char) (n : Int) : List Char :=
  let k : Int := Int.ofNat ds.length
  if k ≤ n ∧ n ≤ 21 then ds ++ List.replicate (n - k).toNat '0'
  else if 0 < n ∧ n ≤ 21 then ds.take n.toNat ++ '.' :: ds.drop n.toNat
  else if -6 < n ∧ n ≤ 0 then '0' :: '.' :: (List.replicate (-n).toNat '0' ++ ds)
  else
    let e := n - 1
    let digits := if ds.length ≤ 1 then ds else ds.take 1 ++ '.' :: ds.drop 1
    digits ++ 'e' :: (if 0 ≤ e then '+' else '-') :: (Nat.repr e.natAbs).data

/-- Number::toString in radix 10. A decimal is taken to be the shortest text of its value. -/
def numberToString : JNum → String
  | .nan => "NaN"
  | .inf neg => if neg then "-Infinity" else "Infinity"
  | .fin neg mant exp =>
    if mant == 0 then "0"
    else
      let all := Nat.toDigits 10 mant
      let ds := (all.reverse.dropWhile fun c => c == '0').reverse
      ⟨(if neg then ['-'] else []) ++ decimalText ds (Int.ofNat all.length + exp)⟩

mutual
/-- ToString. -/
def toStr : JVal → String
  | .undefined => "undefined"
  | .null => "null"
  | .bool b => if b then "true" else "false"
  | .num n => numberToString n
  | .str s => s
  | .arr xs => joinStr xs
  | .obj _ => "[object Object]"
/-- The call `xs.join(',')` of ToString on an array. -/
def joinStr : List JVal → String
  | [] => ""
  | [x] => elemStr x
  | x :: y :: xs => elemStr x ++ "," ++ joinStr (y :: xs)
/-- The text of one element in a join: empty for `null` and `undefined`. -/
def elemStr : JVal → String
  | .undefined => ""
  | .null => ""
  | .bool b => if b then "true" else "false"
  | .num n => numberToString n
  | .str s => s
  | .arr xs => joinStr xs
  | .obj _ => "[object Object]"
end

/-! ## Doubles

A number is held as a decimal. Arithmetic takes the double nearest to each operand and gives the
double nearest to the exact result (ties to even, an infinity on overflow), held as the shortest
decimal that reads back as that double, an integer being written out in full. -/

/-- The bits of `n` above the lowest `step`, counted `step` at a time: `step` times the number
of divisions by `2 ^ step` that bring `n` below `2 ^ step`. -/
def bitsAbove (step : Nat) : Nat → Nat → Nat
  | 0, _ => 0
  | fuel + 1, n => if n < 2 ^ step then 0 else step + bitsAbove step fuel (n / 2 ^ step)

/-- The floor of the binary logarithm of a positive `n`. -/
def log2 (n : Nat) : Nat :=
  let a := bitsAbove 32 n n
  a + bitsAbove 1 32 (n / 2 ^ a)

/-- The binary exponent of the positive rational `num / den`: the `b` with
`2 ^ b ≤ num / den < 2 ^ (b + 1)`. -/
def binaryExponent (num den : Nat) : Int :=
  let b : Int := Int.ofNat (log2 num) - Int.ofNat (log2 den)
  if den * 2 ^ b.toNat ≤ num * 2 ^ (-b).toNat then b else b - 1

/-- The quotient `num / den` rounded to the nearest integer, ties to even. -/
def roundHalfEven (num den : Nat) : Nat :=
  let q := num / den
  let r := num % den
  if den < 2 * r then q + 1
  else if 2 * r < den then q
  else if q % 2 == 0 then q else q + 1

/-- The double nearest to the positive rational `num / den`, as a significand `m` of at most
53 bits and a binary exponent `e ≥ -1074` (the value is `m * 2 ^ e`); `none` when the nearest
value is beyond the largest double. -/
def nearestDouble (num den : Nat) : Option (Nat × Int) :=
  let e : Int := max (binaryExponent num den - 52) (-1074)
  let m := roundHalfEven (num * 2 ^ (-e).toNat) (den * 2 ^ e.toNat)
  if 971 < e ∨ (e = 971 ∧ 2 ^ 53 ≤ m) then none else some (m, e)

/-- The decimal `mant * 10 ^ exp` equal to `m * 2 ^ e`, with `exp = 0` for an integer and
`mant` not a multiple of 10 otherwise. -/
def exactDecimal (m : Nat) (e : Int) : Nat × Int :=
  if 0 ≤ e then (m * 2 ^ e.toNat, 0)
  else
    let p := 2 ^ (-e).toNat
    let g := Nat.gcd m p
    let k := log2 (p / g)
    (m / g * 5 ^ k, - Int.ofNat k)

/-- The exact decimal of the double nearest to `mant * 10 ^ exp`, `none` on overflow. An
integer of at most 53 bits is a double itself. -/
def nearestExact (mant : Nat) (exp : Int) : Option (Nat × Int) :=
  if mant = 0 then some (0, 0)
  else if 0 ≤ exp ∧ mant * 10 ^ exp.toNat ≤ 2 ^ 53 then some (mant * 10 ^ exp.toNat, 0)
  else
    match nearestDouble (mant * 10 ^ exp.toNat) (10 ^ (-exp).toNat) with
    | none => none
    | some (m, e) => some (exactDecimal m e)

/-- The search for the shortest decimal of the double with exact decimal `d * 10 ^ e`: with
`cut` digits of `d` dropped, the decimal below and the one above are tried, and the first that
reads back as the double is taken (the closer one when both do, the even one when they are
equally close); otherwise one digit more is kept. -/
def shortestFrom (d : Nat) (e : Int) : Nat → Nat → Nat × Int
  | 0, _ => (d, e)
  | fuel + 1, cut =>
    let unit := 10 ^ cut
    let lo := d / unit
    let r := d % unit
    let x : Int := e + Int.ofNat cut
    let okLo := lo != 0 && nearestExact lo x == some (d, e)
    let okHi := nearestExact (lo + 1) x == some (d, e)
    if okLo && okHi then
      if 2 * r < unit || (2 * r == unit && lo % 2 == 0) then (lo, x) else (lo + 1, x)
    else if okLo then (lo, x)
    else if okHi then (lo + 1, x)
    else shortestFrom d e fuel (cut - 1)

/-- The shortest decimal that reads back as the double with exact decimal `d * 10 ^ e`; an
integer is written out in full. -/
def shortestDecimal (d : Nat) (e : Int) : Nat × Int :=
  let n := (Nat.toDigits 10 d).length
  let s := shortestFrom d e n (n - 1)
  let t : Nat × Int := if s.1 % 10 == 0 && s.2 < 0 then (s.1 / 10, s.2 + 1) else s
  if 0 ≤ t.2 then (t.1 * 10 ^ t.2.toNat, 0) else t

/-- The double nearest to the decimal `mant * 10 ^ exp`, with the sign `neg`. -/
def roundToDouble (neg : Bool) (mant : Nat) (exp : Int) : JNum :=
  match nearestExact mant exp with
  | none => .inf neg
  | some (d, e) =>
    if e = 0 ∧ d ≤ 2 ^ 53 then .fin neg d 0
    else .fin neg (shortestDecimal d e).1 (shortestDecimal d e).2

/-- The product `x * k` of a number and a positive integer `k` below `2 ^ 53`: the double
nearest to the exact product of the double nearest to `x` and `k`. -/
def JNum.mulNat : JNum → Nat → JNum
  | .fin neg mant exp, k =>
    match nearestExact mant exp with
    | none => .inf neg
    | some (d, e) => roundToDouble neg (d * k) e
  | .nan, _ => .nan
  | .inf neg, _ => .inf neg

/-! ## ToNumber and the product `x * 24` -/

/-- An unsigned StrDecimalLiteral other than `Infinity`: mantissa and decimal exponent. -/
def readDecimal (cs : List Char) : Option (Nat × Int) :=
  let ip := takeDigits cs
  match ip.2 with
  | '.' :: r =>
    let fp := takeDigits r
    if ip.1.isEmpty && fp.1.isEmpty then none
    else
      match readExponent fp.2 with
      | some (e, []) => some (digitsToNat (ip.1 ++ fp.1), e - Int.ofNat fp.1.length)
      | _ => none
  | r =>
    if ip.1.isEmpty then none
    else
      match readExponent r with
      | some (e, []) => some (digitsToNat ip.1, e)
      | _ => none

/-- The digits of a non-decimal integer literal in the given base, `none` when there is no
digit or a character is not a digit of the base. -/
def readRadix (base : Nat) (cs : List Char) : Option Nat :=
  if cs.isEmpty then none
  else cs.foldl (fun a c =>
    match a, hexVal c with
    | some n, some d => if d < base then some (base * n + d) else none
    | _, _ => none) (some 0)

/-- StringToNumber on a text already stripped of surrounding white space. -/
def readNumeric (cs : List Char) : JNum :=
  match cs with
  | [] => .fin false 0 0
  | '0' :: 'x' :: r | '0' :: 'X' :: r => ((readRadix 16 r).map JNum.ofNat).getD .nan
  | '0' :: 'o' :: r | '0' :: 'O' :: r => ((readRadix 8 r).map JNum.ofNat).getD .nan
  | '0' :: 'b' :: r | '0' :: 'B' :: r => ((readRadix 2 r).map JNum.ofNat).getD .nan
  | c :: r =>
    let neg := c == '-'
    let body := if c == '-' || c == '+' then r else c :: r
    if body == "Infinity".data then .inf neg
    else
      match readDecimal body with
      | some (m, e) => .fin neg m e
      | none => .nan

/-- StringToNumber. -/
def stringToNumber (s : String) : JNum :=
  readNumeric ((s.data.dropWhile isRegexSpace).reverse.dropWhile isRegexSpace).reverse

/-- ToNumber. An array or an object is converted through its text, since ToPrimitive finds no
primitive `valueOf` and calls `toString`: the empty array reads as `0`, an array of one element
as the text of that element, a text with a comma or `[object Object]` as `NaN`. -/
def toNumber : JVal → JNum
  | .undefined => .nan
  | .null => .fin false 0 0
  | .bool b => .fin false (if b then 1 else 0) 0
  | .num n => n
  | .str s => stringToNumber s
  | .arr xs => stringToNumber (toStr (.arr xs))
  | .obj kvs => stringToNumber (toStr (.obj kvs))

/-- The expression `v * 24`. -/
def times24 (v : JVal) : JVal := .num ((toNumber v).mulNat 24)

/-! ## Requests and responses -/

/-- A request sent through axios. The symbol a URL or body is built from is kept as the
value it is read from. -/
inductive Request where
  /-- `GET /api/datasets` -/
  | getDatasets
  /-- `GET /api/prices?symbol=...&limit=300` -/
  | getPrices (symbol : JVal)
  /-- `POST /api/forecast/run` with body `{symbol, models, preview_horizon_hours, ensemble}` -/
  | postForecastRun (symbol : JVal) (models : List String) (previewHorizonHours : Int)
      (ensemble : Bool)
  /-- `GET /get_historical?symbol=...&limit=300` -/
  | getHistorical (symbol : JVal)
  /-- `GET /api/predictions?symbol=...&models=...&limit=5` -/
  | getPredictions (symbol : JVal) (models : List String)

/-- The outcome of an awaited axios call: the body `resp.data`, or the error it rejects
with. A function takes the outcome of each request it may send; an outcome is read only when
the request is sent. -/
abbrev Response := Except JsError JVal

/-- What running a piece of the component gives: its result and the requests it sent, in
order. -/
structure Effect (α : Type) where
  result : α
  requests : List Request

/-! ## Component state -/

/-- The state hooks of `Forecasts` (lines 13-25). `chosenDataset` is `null` at first and then
whatever `find` returned, `undefined` included. -/
structure State where
  datasets : JVal
  chosenDataset : JVal
  horizon : Int
  ohlcvRows : JVal
  forecastPreview : JVal
  loading : Bool
  error : JVal
  models : List String
  ensemble : Bool
  publicHistorical : JVal
  publicForecast : JVal
  showPublic : Bool
  datasetLoaded : Bool

/-- The state on mount (the `useState` defaults). -/
def State.initial : State where
  datasets := .arr []
  chosenDataset := .null
  horizon := 24
  ohlcvRows := .arr []
  forecastPreview := .null
  loading := false
  error := .null
  models := ["ma", "arima", "lstm"]
  ensemble := false
  publicHistorical := .null
  publicForecast := .null
  showPublic := false
  datasetLoaded := false

/-- The expression `e?.response?.data?.error`. -/
def serverMessage (e : JsError) : JVal :=
  match e.response with
  | none => .undefined
  | some data => data.propOpt "error"

/-- The expression `e?.response?.data?.error || e.message || fallback`. -/
def errorMessage (e : JsError) (fallback : String) : JVal :=
  ((serverMessage e).or (.str e.message)).or (.str fallback)

/-! ## Loaders -/

/-- The inner `try` of `loadDatasets` (lines 45-57) on a string body: the NaN rewrite followed
by `JSON.parse`; `none` is the `catch (parseError)` branch. -/
def parseBody (s : String) : Option JVal := jsonParse (replaceNaN s)

/-- The function `loadDatasets` (lines 27-73), given the outcome of `GET /api/datasets`. -/
def loadDatasets (resp : Response) : Except JsError JVal :=
  match resp with
  | .error _ => .ok (.arr [])
  | .ok data =>
    match data with
    | .str s =>
      match parseBody s with
      | none => .ok (.arr [])
      | some parsed => if parsed.isArray then .ok parsed else .ok (.arr [])
    | _ => if data.isArray then .ok data else .ok (.arr [])

/-- The function `loadPricesFromDataset` (lines 75-79), given the outcome of the price request
should it be sent. -/
def loadPricesFromDataset (dataset : JVal) (resp : Response) : Effect (Except JsError JVal) :=
  if !dataset.truthy || !(dataset.field "symbol").truthy then ⟨.ok (.arr []), []⟩
  else
    ⟨resp.bind fun data => (data.prop "rows").map fun rows => rows.or (.arr []),
     [.getPrices (dataset.field "symbol")]⟩

/-- The function `runForecast` (lines 81-93), given the outcome of the forecast request should
it be sent. -/
def runForecast (s : State) (resp : Response) : Effect (Except JsError JVal) :=
  if !s.chosenDataset.truthy then ⟨.error { message := "No dataset selected" }, []⟩
  else
    ⟨resp.bind fun data => (data.prop "preview").map fun preview => preview.or .null,
     [.postForecastRun (s.chosenDataset.field "symbol") s.models s.horizon s.ensemble]⟩

/-- One entry of the reshaped stored predictions (lines 177-181). -/
def formatPrediction (pred : JVal) : Except JsError JVal :=
  (pred.prop "model").bind fun model =>
  (pred.prop "predicted_values").bind fun values =>
  (pred.prop "forecast_horizon").map fun fh =>
    .obj [("model", model), ("predicted_values", values), ("horizon_hours", times24 fh)]

/-- The call `storedPredictions.data.map(...)` (line 177). -/
def mapPredictions (data : JVal) : Except JsError JVal :=
  match data with
  | .arr preds => (preds.mapM formatPrediction).map .arr
  | .undefined => .error (JVal.readError data "map")
  | .null => .error (JVal.readError data "map")
  | _ => .error { message := "storedPredictions.data.map is not a function" }

/-- The object set by the `catch` of `fetchPublicEndpoints` (line 187). -/
def publicError (e : JsError) : JVal :=
  .obj [("error", (serverMessage e).or (.str e.message))]

/-- The function `fetchPublicEndpoints` (lines 161-189) run on state `s`, given the outcomes
of the historical-data and stored-predictions requests should they be sent. The handlers that
call it leave `chosenDataset` and `models` as captured. -/
def fetchPublicEndpoints (s : State) (hist stored : Response) : Effect State :=
  if !s.chosenDataset.truthy then ⟨s, []⟩
  else
    let symbol := s.chosenDataset.field "symbol"
    match hist with
    | .error e => ⟨{ s with publicForecast := publicError e }, [.getHistorical symbol]⟩
    | .ok h =>
      let s1 := { s with publicHistorical := h }
      let sent := [.getHistorical symbol, .getPredictions symbol s.models]
      match stored with
      | .error e => ⟨{ s1 with publicForecast := publicError e }, sent⟩
      | .ok data =>
        match mapPredictions data with
        | .error e => ⟨{ s1 with publicForecast := publicError e }, sent⟩
        | .ok models =>
          let formattedResults : JVal :=
            .obj [("symbol", symbol), ("results", data), ("preview", .obj [("models", models)])]
          ⟨{ s1 with publicForecast := formattedResults }, sent⟩

/-! ## Handlers -/

/-- The function `loadSelectedDataset` (lines 95-114). -/
def loadSelectedDataset (s : State) (prices : Response) : Effect State :=
  if !s.chosenDataset.truthy then
    ⟨{ s with error := .str "Please select a dataset first" }, []⟩
  else
    let p := loadPricesFromDataset s.chosenDataset prices
    match p.result with
    | .ok rows =>
      ⟨{ s with error := .null, ohlcvRows := rows, forecastPreview := .null,
                datasetLoaded := true, loading := false }, p.requests⟩
    | .error e =>
      ⟨{ s with error := errorMessage e "Failed to load dataset", datasetLoaded := false,
                loading := false }, p.requests⟩

/-- The function `runForecastOnly` (lines 116-135). -/
def runForecastOnly (s : State) (forecast hist stored : Response) : Effect State :=
  if !s.datasetLoaded || !s.chosenDataset.truthy then
    ⟨{ s with error := .str "Please load a dataset first" }, []⟩
  else
    let f := runForecast s forecast
    match f.result with
    | .ok prev =>
      let s1 := { s with error := .null, forecastPreview := prev }
      if s.showPublic then
        let pub := fetchPublicEndpoints s1 hist stored
        ⟨{ pub.result with loading := false }, f.requests ++ pub.requests⟩
      else ⟨{ s1 with loading := false }, f.requests⟩
    | .error e =>
      ⟨{ s with error := errorMessage e "Failed to run forecast", loading := false },
       f.requests⟩

/-- The call `Promise.all([a, b])`: both results when both promises fulfil, otherwise the
error of the promise that rejects first; `secondFirst` tells that `b` settles before `a`. -/
def promiseAll (a b : Except JsError JVal) (secondFirst : Bool) : Except JsError (JVal × JVal) :=
  match a, b with
  | .ok x, .ok y => .ok (x, y)
  | .error e, .ok _ => .error e
  | .ok _, .error e => .error e
  | .error ea, .error eb => .error (if secondFirst then eb else ea)

/-- The function `refresh` (lines 137-158). Both calls of the `Promise.all` are started, the
price loader first; `forecastFirst` tells that the forecast call settles before the price
call. -/
def refresh (s : State) (prices forecast : Response) (forecastFirst : Bool)
    (hist stored : Response) : Effect State :=
  if !s.chosenDataset.truthy then
    ⟨{ s with error := .str "Please select a dataset first" }, []⟩
  else
    let p := loadPricesFromDataset s.chosenDataset prices
    let f := runForecast s forecast
    match promiseAll p.result f.result forecastFirst with
    | .ok (rows, prev) =>
      let s1 := { s with error := .null, ohlcvRows := rows, forecastPreview := prev,
                         datasetLoaded := true }
      if s.showPublic then
        let pub := fetchPublicEndpoints s1 hist stored
        ⟨{ pub.result with loading := false }, p.requests ++ f.requests ++ pub.requests⟩
      else ⟨{ s1 with loading := false }, p.requests ++ f.requests⟩
    | .error e =>
      ⟨{ s with error := errorMessage e "Failed to load", loading := false },
       p.requests ++ f.requests⟩

/-- The call `datasets.find(d => d._id === value)` (line 285): the first entry whose `_id` is
`value`, `undefined` when there is none; reading `_id` of a `null` entry throws. -/
def findById : List JVal → String → Except JsError JVal
  | [], _ => .ok .undefined
  | d :: ds, value =>
    match d.prop "_id" with
    | .error e => .error e
    | .ok id => if id.strictEqStr value then .ok d else findById ds value

/-- The `onChange` handler of the dataset select (lines 284-290) for the option `value`; an
error is the handler throwing, which leaves the state as it was. -/
def selectDataset (s : State) (value : String) : Except JsError (Effect State) :=
  match s.datasets with
  | .arr ds =>
    (findById ds value).map fun dataset =>
      ⟨{ s with chosenDataset := dataset, datasetLoaded := false, ohlcvRows := .arr [],
                forecastPreview := .null }, []⟩
  | _ => .error { message := "datasets.find is not a function" }

/-- The message shown when the catalog is empty (line 210). -/
def noDatasetsMessage : String :=
  "No datasets found. Please go to the Data Generator page to create a dataset first."

/-- The expression `availableDatasets.length === 0` on an array. -/
def isEmptyArray : JVal → Bool
  | .arr xs => xs.length == 0
  | _ => false

/-- The function `initializeComponent` of the mount effect (lines 192-227), given the outcome
of the catalog request. -/
def initializeComponent (s : State) (resp : Response) : Effect State :=
  match loadDatasets resp with
  | .ok available =>
    if available.isArray then
      if isEmptyArray available then
        ⟨{ s with datasets := available, error := .str noDatasetsMessage, loading := false },
         [.getDatasets]⟩
      else
        ⟨{ s with error := .null, datasets := available, loading := false }, [.getDatasets]⟩
    else
      ⟨{ s with datasets := .arr [], error := .str "Failed to load datasets - invalid data format",
                loading := false }, [.getDatasets]⟩
  | .error _ =>
    ⟨{ s with datasets := .arr [], error := .str "Failed to load datasets", loading := false },
     [.getDatasets]⟩

/-! ## What the buttons allow -/

/-- The Load Dataset button is enabled (line 383). -/
def loadEnabled (s : State) : Bool := !(s.loading || !s.chosenDataset.truthy)

/-- The Run Forecast button is enabled (line 393). -/
def runForecastEnabled (s : State) : Bool :=
  !(s.loading || !s.datasetLoaded || s.models.length == 0)

/-- The Refresh All button is enabled (line 404). -/
def refreshEnabled (s : State) : Bool := !(s.loading || !s.chosenDataset.truthy)


/-! ## Sample data -/

/-- A catalog entry for AAPL. -/
def aapl : JVal :=
  .obj [("_id", .str "d1"), ("symbol", .str "AAPL"), ("exchange", .str "NASDAQ"),
        ("records", .num (.ofNat 30)), ("generated_at", .str "2024-01-01")]

/-- One OHLCV row. -/
def sampleRow : JVal :=
  .obj [("date", .str "2024-01-02"), ("open", .num (.ofNat 100)), ("high", .num (.ofNat 110)),
        ("low", .num (.ofNat 90)), ("close", .num (.ofNat 105))]

/-- The rejection of a request answered with status 500 and body `{"error": "model unavailable"}`. -/
def modelUnavailable : JsError :=
  { message := "Request failed with status code 500",
    response := some (.obj [("error", .str "model unavailable")]) }

/-- Whether a request is `POST /api/forecast/run`. -/
def Request.isForecastRun : Request → Bool
  | .postForecastRun _ _ _ _ => true
  | _ => false

/-- A forecast preview with the single model `ma` over 24 dates. -/
def samplePreview : JVal :=
  .obj [("dates", .arr (List.replicate 24 (.str "2024-02-01T00:00:00"))),
        ("models", .arr [.obj [("model", .str "ma"),
          ("predicted_values", .arr (List.replicate 24 (.num (.ofNat 101))))]])]

/-- A state in which a forecast is displayed for the loaded AAPL dataset. -/
def forecastedState : State :=
  { State.initial with
    datasets := .arr [aapl, .obj [("_id", .str "d2"), ("symbol", .str "MSFT")]]
    chosenDataset := aapl
    ohlcvRows := .arr (List.replicate 30 sampleRow)
    forecastPreview := .obj [("dates", .arr []), ("models", .arr [])]
    datasetLoaded := true }

/-- The rejection of a request that got no response. -/
def networkError : JsError := { message := "Network Error" }

/-- The states the component can be in: the state after the mount effect has loaded the
catalog, and every state a completed handler leaves, each handler started from an enabled
control. -/
inductive Reachable : State → Prop where
  | mount (resp : Response) : Reachable (initializeComponent State.initial resp).result
  | select {s : State} {r : Effect State} (value : String) :
      Reachable s → selectDataset s value = .ok r → Reachable r.result
  | load {s : State} (prices : Response) :
      Reachable s → loadEnabled s = true → Reachable (loadSelectedDataset s prices).result
  | forecast {s : State} (forecast hist stored : Response) :
      Reachable s → runForecastEnabled s = true →
      Reachable (runForecastOnly s forecast hist stored).result
  | refresh {s : State} (prices forecast : Response) (forecastFirst : Bool)
      (hist stored : Response) :
      Reachable s → refreshEnabled s = true →
      Reachable (refresh s prices forecast forecastFirst hist stored).result

/-- Whether `:\s*NaN` matches somewhere in a text. -/
def containsColonNaN : List Char → Bool
  | [] => false
  | c :: cs => (c == ':' && (matchNaN cs).isSome) || containsColonNaN cs

/-- The modes and texts the correspondence is stated for: right after a colon the text must
not continue a match of `:\s*NaN`, and a keyword has no colon left to read. -/
def Aligned : Mode → List Char → Prop
  | .afterColon, cs => matchNaN cs = none
  | .word todo _, _ => ':' ∉ todo
  | _, _ => True


/-- The body `[{"symbol":"AAPL","value": NaN}]`. -/
def nanArrayBody : String := "[\x7b\"symbol\":\"AAPL\",\"value\": NaN\x7d]"

/-- The body `{"symbol":"AAPL","value": NaN}`. -/
def nanObjectBody : String := "\x7b\"symbol\":\"AAPL\",\"value\": NaN\x7d"

/-- The body `[{"symbol":"AAPL","value": NaN,"history":[1.5,NaN]}]`. -/
def nanElementBody : String :=
  "[\x7b\"symbol\":\"AAPL\",\"value\": NaN,\"history\":[1.5,NaN]\x7d]"

/-- The text `[{"symbol":"AAPL","value": null,"history":[1.5,NaN]}]`. -/
def nanElementRewritten : String :=
  "[\x7b\"symbol\":\"AAPL\",\"value\": null,\"history\":[1.5,NaN]\x7d]"

/-! ## Chart data -/

/-- The call `ohlcvRows.map(r => r[key])` (lines 235-241). -/
def column (rows : JVal) (key : String) : Except JsError JVal :=
  match rows with
  | .arr rs => (rs.mapM fun (r : JVal) => r.prop key).map .arr
  | .undefined => .error (JVal.readError rows "map")
  | .null => .error (JVal.readError rows "map")
  | _ => .error { message := "ohlcvRows.map is not a function" }

/-- The memo `candlestick` (lines 232-245). -/
def candlestick (ohlcvRows chosenDataset : JVal) : Except JsError JVal :=
  (ohlcvRows.prop "length").bind fun length =>
  if !length.truthy || !chosenDataset.truthy then .ok (.obj [])
  else
    (column ohlcvRows "date").bind fun dates =>
    (column ohlcvRows "open").bind fun opens =>
    (column ohlcvRows "high").bind fun highs =>
    (column ohlcvRows "low").bind fun lows =>
    (column ohlcvRows "close").map fun closes =>
      .obj [("x", dates), ("open", opens), ("high", highs), ("low", lows), ("close", closes),
            ("type", .str "candlestick"),
            ("name", .str (toStr (chosenDataset.field "symbol") ++ " OHLCV"))]

/-- The name of a forecast trace (line 255), for a non-null preview and model entry `m`. -/
def traceName (forecastPreview m : JVal) : String :=
  "Forecast: " ++ toStr (m.field "model") ++ " (" ++
    toStr ((forecastPreview.field "horizon_hours").or (m.field "horizon_hours")) ++ "h)"

/-- The trace built for one entry of `forecastPreview.models` (lines 250-256). -/
def forecastTrace (forecastPreview x m : JVal) : Except JsError JVal :=
  (m.prop "predicted_values").map fun y =>
    .obj [("x", x), ("y", y), ("type", .str "scatter"), ("mode", .str "lines+markers"),
          ("name", .str (traceName forecastPreview m))]

/-- The memo `forecastTraces` (lines 247-257). -/
def forecastTraces (forecastPreview : JVal) : Except JsError JVal :=
  if !forecastPreview.truthy then .ok (.arr [])
  else
    let x := forecastPreview.field "dates"
    match (forecastPreview.field "models").or (.arr []) with
    | .arr ms => (ms.mapM fun m => forecastTrace forecastPreview x m).map .arr
    | _ => .error { message := "(forecastPreview.models || []).map is not a function" }

/-- The `data` handed to `Plot` (line 522); both memos are evaluated by the render before
it. -/
def plotData (s : State) : Except JsError JVal :=
  (candlestick s.ohlcvRows s.chosenDataset).bind fun c =>
  (forecastTraces s.forecastPreview).bind fun traces =>
    match traces with
    | .arr ts => .ok (if s.chosenDataset.truthy && s.datasetLoaded then .arr (c :: ts) else .arr [])
    | _ => .error { message := "forecastTraces is not iterable" }

/-- The number of entries of `forecastPreview.models`, `0` when the preview is `null` or has
no models. -/
def modelCount (forecastPreview : JVal) : Nat :=
  if forecastPreview.truthy then
    match forecastPreview.field "models" with
    | .arr ms => ms.length
    | _ => 0
  else 0

/-! ## The model toggle -/

/-- The expression `Array.from(new Set(xs))`: the distinct members of `xs` in the order of
their first occurrence. -/
def arrayFromSet : List String → List String
  | [] => []
  | x :: xs => x :: (arrayFromSet xs).filter fun y => y != x

/-- The updater passed to `setModels` by the `onClick` of a model button (line 338):
`selected` is `models.includes(opt.id)` as of the render, `prev` the current list. -/
def toggleUpdater (selected : Bool) (prev : List String) (id : String) : List String :=
  if selected then prev.filter fun x => x != id
  else arrayFromSet (prev ++ [id])

/-- A click on the button of model `id` in a rendered state: `selected` is computed from the
list the click updates. -/
def toggleModel (models : List String) (id : String) : List String :=
  toggleUpdater (models.contains id) models id

/-! ## The generator form (`DataGenerator.js`) -/

/-- The `generatorForm` state (lines 5-9); the inputs hold text. -/
structure GeneratorForm where
  symbol : String
  exchange : String
  days : String

/-- The state hooks of `DataGenerator` (lines 5-12). -/
structure GeneratorState where
  generatorForm : GeneratorForm
  isGenerating : Bool
  genOutcome : JVal
  genPayload : JVal

/-- The state of `DataGenerator` on mount. -/
def GeneratorState.initial : GeneratorState where
  generatorForm := { symbol := "AAPL", exchange := "NASDAQ", days := "7" }
  isGenerating := false
  genOutcome := .null
  genPayload := .null

/-- The request `POST /api/generate` with body `{symbol, exchange, days, dataType}`. -/
structure GenerateRequest where
  symbol : String
  exchange : String
  days : JNum
  dataType : String

/-- What a run of `handleSubmit` leaves: the state, the requests sent, and the error the
function throws, if it throws. -/
structure SubmitRun where
  state : GeneratorState
  requests : List GenerateRequest
  thrown : Option JsError

/-- The digits of `parseInt` in radix 10: the longest prefix of decimal digits. -/
def leadingDigits (cs : List Char) : List Nat := (takeDigits cs).1

/-- The digits of `parseInt` in radix 16: the longest prefix of hexadecimal digits. -/
def leadingHexDigits : List Char → List Nat
  | [] => []
  | c :: cs =>
    match hexVal c with
    | some d => d :: leadingHexDigits cs
    | none => []

/-- The unsigned part of `parseInt(s)`: a `0x` or `0X` prefix selects radix 16; `none` is
`NaN` (no digit). -/
def parseUnsigned (cs : List Char) : Option Nat :=
  match cs with
  | '0' :: 'x' :: r | '0' :: 'X' :: r =>
    if (leadingHexDigits r).isEmpty then none else some (digitsToHex (leadingHexDigits r))
  | _ => if (leadingDigits cs).isEmpty then none else some (digitsToNat (leadingDigits cs))

/-- The call `parseInt(s)` with no radix: leading white space is skipped, then an optional
sign, then the digits. -/
def parseInt (s : String) : JNum :=
  let cs := s.data.dropWhile isRegexSpace
  let neg := cs.head? == some '-'
  let body := if cs.head? == some '-' || cs.head? == some '+' then cs.tail else cs
  match parseUnsigned body with
  | some n => .fin neg n 0
  | none => .nan

/-- The test `isNaN(daysInt) || daysInt < 1` (line 31). -/
def invalidDays : JNum → Bool
  | .nan => true
  | .inf neg => neg
  | .fin neg mant exp =>
    neg || (if 0 ≤ exp then mant == 0 else decide (mant < 10 ^ (-exp).toNat))

/-- The names bound where `handleSubmit` is defined: the imports, the component and its
`useState` pairs and functions (lines 1-99). The globals of the page (`parseInt`, `isNaN`,
`Error`, ...) are not listed; none of them is a setter of this component. -/
def generatorScope : List String :=
  ["React", "useState", "axios", "DataGenerator", "generatorForm", "setGeneratorForm",
   "isGenerating", "setIsGenerating", "genOutcome", "setGenOutcome", "genPayload",
   "setGenPayload", "handleInputChange", "handleSubmit", "downloadCSV", "downloadJSON"]

/-- Reading the identifier `name` in `handleSubmit`: a ReferenceError when nothing binds
it. -/
def resolve (name : String) : Except JsError Unit :=
  if generatorScope.contains name then .ok () else .error { message := name ++ " is not defined" }

/-- The `try`/`catch`/`finally` of `handleSubmit` (lines 28-56), run on state `s`, given the
outcome of the generate request should it be sent. -/
def submitBody (s : GeneratorState) (resp : Response) : SubmitRun :=
  let daysInt := parseInt s.generatorForm.days
  if invalidDays daysInt then
    let error : JsError := { message := "Days must be a positive number" }
    let outcome : JVal :=
      .obj [("success", .bool false), ("error", errorMessage error "Failed to generate data")]
    ⟨{ s with genOutcome := outcome, isGenerating := false }, [], none⟩
  else
    let sent : List GenerateRequest :=
      [{ symbol := s.generatorForm.symbol, exchange := s.generatorForm.exchange,
         days := daysInt, dataType := "financial" }]
    match resp with
    | .ok data =>
      let outcome : JVal := .obj [("success", .bool true), ("data", data)]
      ⟨{ s with genOutcome := outcome, genPayload := data, isGenerating := false }, sent, none⟩
    | .error error =>
      let outcome : JVal :=
        .obj [("success", .bool false), ("error", errorMessage error "Failed to generate data")]
      ⟨{ s with genOutcome := outcome, isGenerating := false }, sent, none⟩

/-- The function `handleSubmit` (lines 22-57). Lines 25 and 26 call `setResult` and
`setGeneratedData` before the `try`; a call of a name that nothing binds throws out of the
function with the state as set so far. -/
def handleSubmit (s : GeneratorState) (resp : Response) : SubmitRun :=
  let s1 := { s with isGenerating := true }
  match resolve "setResult" with
  | .error e => ⟨s1, [], some e⟩
  | .ok _ =>
    match resolve "setGeneratedData" with
    | .error e => ⟨s1, [], some e⟩
    | .ok _ => submitBody s1 resp

/-! ## The rewrite as a scan -/

theorem matchNaN_nil : matchNaN [] = none := rfl

theorem matchNaN_cons (c : Char) (cs : List Char) :
    matchNaN (c :: cs)
      = if isRegexSpace c then matchNaN cs else if c = 'N' then matchAN cs else none := rfl

theorem matchAN_some (cs rest : List Char) (h : matchAN cs = some rest) :
    cs = 'a' :: 'N' :: rest := by
  match cs, h with
  | a :: b :: r, h =>
    simp only [matchAN] at h
    split at h
    · rename_i hab
      simp only [Option.some.injEq] at h
      rw [hab.1, hab.2, h]
    · simp at h

/-- A match of `\s*NaN` consumes at least three characters. -/
theorem matchNaN_length (cs rest : List Char) (h : matchNaN cs = some rest) :
    rest.length < cs.length := by
  induction cs with
  | nil => simp [matchNaN_nil] at h
  | cons c cs ih =>
    rw [matchNaN_cons] at h
    split at h
    · have := ih h
      simp only [List.length_cons]
      omega
    · split at h
      · rw [matchAN_some cs rest h]
        simp only [List.length_cons]
        omega
      · simp at h

/-- The scan does not depend on the fuel once there is one unit per character. -/
theorem replaceAux_fuel (n m : Nat) (cs : List Char) (hn : cs.length ≤ n) (hm : cs.length ≤ m) :
    replaceAux n cs = replaceAux m cs := by
  induction n generalizing m cs with
  | zero =>
    have : cs = [] := List.length_eq_zero.mp (Nat.le_zero.mp hn)
    subst this
    cases m <;> rfl
  | succ n ih =>
    cases cs with
    | nil => cases m <;> rfl
    | cons c cs =>
      cases m with
      | zero => simp at hm
      | succ m =>
        simp only [List.length_cons, Nat.add_le_add_iff_right] at hn hm
        simp only [replaceAux]
        split
        · cases hmatch : matchNaN cs with
          | none => simp only; rw [ih m cs hn hm]
          | some rest =>
            have hl := matchNaN_length cs rest hmatch
            simp only
            rw [ih m rest (by omega) (by omega)]
        · rw [ih m cs hn hm]

theorem replaceNaNChars_nil : replaceNaNChars [] = [] := rfl

/-- The scan copies a character that is not a colon. -/
theorem replaceNaNChars_cons_ne (c : Char) (cs : List Char) (h : c ≠ ':') :
    replaceNaNChars (c :: cs) = c :: replaceNaNChars cs := by
  simp [replaceNaNChars, replaceAux, h]

/-- The scan copies a colon at which `\s*NaN` does not match. -/
theorem replaceNaNChars_colon_none (cs : List Char) (h : matchNaN cs = none) :
    replaceNaNChars (':' :: cs) = ':' :: replaceNaNChars cs := by
  simp [replaceNaNChars, replaceAux, h]

/-- The scan replaces a colon followed by a match with `: null` and goes on after the match. -/
theorem replaceNaNChars_colon_some (cs rest : List Char) (h : matchNaN cs = some rest) :
    replaceNaNChars (':' :: cs)
      = ':' :: ' ' :: 'n' :: 'u' :: 'l' :: 'l' :: replaceNaNChars rest := by
  have hl := matchNaN_length cs rest h
  simp only [replaceNaNChars, replaceAux, List.length_cons, h, if_true]
  rw [replaceAux_fuel cs.length rest.length rest (by omega) (le_refl _)]

/-! ## The tokenizer on rewritten text

The tokens the lenient grammar reads from a text are the tokens `JSON.parse` reads from the
rewritten text. -/

theorem tokens_nil (l : Bool) (m : Mode) : tokens l m [] = finish m := by
  cases m <;> rfl

theorem tokens_cons (l : Bool) (m : Mode) (c : Char) (cs : List Char) :
    tokens l m (c :: cs)
      = match step l m c cs with
        | none => none
        | some (out, m') =>
          match tokens l m' cs with
          | none => none
          | some ts => some (out ++ ts) := by
  cases m <;> rfl

theorem isRegexSpace_of_isJsonSpace (c : Char) (h : isJsonSpace c = true) :
    isRegexSpace c = true := by
  simp only [isJsonSpace, Bool.or_eq_true, beq_iff_eq] at h
  rcases h with ((h | h) | h) | h <;> subst h <;> decide

/-- A character of `\s` that is not JSON whitespace cannot stand between tokens. -/
theorem startStep_regexSpace (c : Char) (hreg : isRegexSpace c = true)
    (hjson : isJsonSpace c = false) : startStep c = none := by
  unfold startStep
  rw [if_neg (by simp [hjson])]
  have hne : ∀ d : Char, isRegexSpace d = false → (c == d) = false := by
    intro d hd
    rw [beq_eq_false_iff_ne]
    rintro rfl
    rw [hreg] at hd
    cases hd
  have hdig : isDigit c = false := by
    simp only [isRegexSpace, Bool.or_eq_true, beq_iff_eq, Bool.and_eq_true,
      decide_eq_true_eq] at hreg
    simp only [isDigit, Bool.and_eq_false_iff, decide_eq_false_iff_not]
    have h0 : '0'.toNat = 48 := rfl
    have h9 : '9'.toNat = 57 := rfl
    omega
  simp [hne '[' (by decide), hne ']' (by decide), hne '{' (by decide), hne '}' (by decide),
    hne ',' (by decide), hne ':' (by decide), hne '"' (by decide), hne 't' (by decide),
    hne 'f' (by decide), hne 'n' (by decide), hne '-' (by decide), hdig]

theorem startStep_colon : startStep ':' = some ([.colon], .afterColon) := by
  rfl

/-- Away from colons, and from an `N` right after a colon, both grammars take the same
step, whatever the text that follows. -/
theorem step_eq (m : Mode) (c : Char) (cs cs' : List Char) (hc : c ≠ ':')
    (hN : m = .afterColon → c ≠ 'N') :
    step true m c cs = step false m c cs' := by
  cases m with
  | afterColon =>
    have := hN rfl
    simp [step, afterColonStep, this]
  | string acc => simp [step, stringStep, hc]
  | _ => rfl

/-- The text ` null` after a colon is the token `null` in the grammar of `JSON.parse`. -/
theorem tokens_null_literal (cs : List Char) :
    tokens false .afterColon (' ' :: 'n' :: 'u' :: 'l' :: 'l' :: cs)
      = match tokens false .start cs with
        | none => none
        | some ts => some (.atom .null :: ts) := by
  have h1 : ∀ xs, step false .afterColon ' ' xs = some ([], .afterColon) := fun _ => rfl
  have h2 : ∀ xs, step false .afterColon 'n' xs = some ([], .word ['u', 'l', 'l'] .null) :=
    fun _ => rfl
  have h3 : ∀ xs, step false (.word ['u', 'l', 'l'] .null) 'u' xs
      = some ([], .word ['l', 'l'] .null) := fun _ => rfl
  have h4 : ∀ xs, step false (.word ['l', 'l'] .null) 'l' xs
      = some ([], .word ['l'] .null) := fun _ => rfl
  have h5 : ∀ xs, step false (.word ['l'] .null) 'l' xs
      = some ([.atom .null], .start) := fun _ => rfl
  simp only [tokens_cons, h1, h2, h3, h4, h5]
  cases tokens false .start cs <;> rfl

theorem wordStep_two (v : JVal) (a e f : Char) :
    wordStep [e, f] v a = if a = e then some ([], .word [f] v) else none := by
  simp [wordStep]

theorem wordStep_one (v : JVal) (a e : Char) :
    wordStep [e] v a = if a = e then some ([.atom v], .start) else none := by
  simp [wordStep]

theorem tokens_word_aN (l : Bool) (v : JVal) (cs : List Char) (ts : List Token)
    (h : tokens l (.word ['a', 'N'] v) cs = some ts) :
    ∃ rest ts', cs = 'a' :: 'N' :: rest ∧ tokens l .start rest = some ts' ∧
      ts = .atom v :: ts' := by
  match cs with
  | [] => simp [tokens_nil, finish] at h
  | [a] =>
    simp only [tokens_cons, step, wordStep_two, tokens_nil] at h
    by_cases ha : a = 'a'
    · simp [ha, finish] at h
    · simp [ha] at h
  | a :: b :: rest =>
    simp only [tokens_cons, step, wordStep_two] at h
    by_cases ha : a = 'a'
    · by_cases hb : b = 'N'
      · subst ha hb
        simp only [if_true, wordStep_one] at h
        cases hr : tokens l .start rest with
        | none => simp [hr] at h
        | some ts' =>
          simp only [hr, List.nil_append, List.singleton_append, Option.some.injEq] at h
          exact ⟨rest, ts', rfl, hr, h.symm⟩
      · subst ha
        simp [wordStep_one, hb] at h
    · simp [ha] at h

/-- When `\s*NaN` matches after a colon and the lenient grammar accepts the text, it reads the
match as the token `null` and goes on between tokens after it. -/
theorem tokens_afterColon_match (cs rest : List Char) (ts : List Token)
    (hm : matchNaN cs = some rest) (h : tokens true .afterColon cs = some ts) :
    ∃ ts', tokens true .start rest = some ts' ∧ ts = .atom .null :: ts' := by
  induction cs generalizing ts with
  | nil => simp [matchNaN_nil] at hm
  | cons c cs ih =>
    rw [matchNaN_cons] at hm
    rw [tokens_cons] at h
    by_cases hreg : isRegexSpace c = true
    · rw [if_pos hreg] at hm
      have hcN : (c == 'N') = false := by
        rw [beq_eq_false_iff_ne]
        rintro rfl
        revert hreg
        decide
      by_cases hj : isJsonSpace c = true
      · simp only [step, afterColonStep, hj, if_true, List.nil_append] at h
        cases hr : tokens true .afterColon cs with
        | none => simp [hr] at h
        | some ts1 =>
          simp only [hr, Option.some.injEq] at h
          subst h
          exact ih ts1 hm hr
      · have hj' : isJsonSpace c = false := by simpa using hj
        simp [step, afterColonStep, hj', hcN, startStep_regexSpace c hreg hj'] at h
    · rw [if_neg hreg] at hm
      by_cases hN : c = 'N'
      · subst hN
        rw [if_pos rfl] at hm
        have hcs := matchAN_some cs rest hm
        subst hcs
        have hstep : step true .afterColon 'N' ('a' :: 'N' :: rest)
            = some ([], .word ['a', 'N'] .null) := rfl
        rw [hstep] at h
        cases hr : tokens true (.word ['a', 'N'] .null) ('a' :: 'N' :: rest) with
        | none => simp [hr] at h
        | some ts1 =>
          simp only [hr, List.nil_append, Option.some.injEq] at h
          subst h
          obtain ⟨rest', ts', hrest, htok, hts⟩ := tokens_word_aN true .null _ _ hr
          simp only [List.cons.injEq, true_and] at hrest
          subst hrest
          exact ⟨ts', htok, hts⟩
      · rw [if_neg hN] at hm
        cases hm

theorem aligned_startStep (c : Char) (out : List Token) (m : Mode) (cs : List Char)
    (hc : c ≠ ':') (h : startStep c = some (out, m)) : Aligned m cs := by
  unfold startStep at h
  by_cases h0 : isJsonSpace c = true
  · rw [if_pos h0] at h
    cases h
    exact trivial
  rw [if_neg h0] at h
  by_cases h1 : (c == '[') = true
  · rw [if_pos h1] at h
    cases h
    exact trivial
  rw [if_neg h1] at h
  by_cases h2 : (c == ']') = true
  · rw [if_pos h2] at h
    cases h
    exact trivial
  rw [if_neg h2] at h
  by_cases h3 : (c == '{') = true
  · rw [if_pos h3] at h
    cases h
    exact trivial
  rw [if_neg h3] at h
  by_cases h4 : (c == '}') = true
  · rw [if_pos h4] at h
    cases h
    exact trivial
  rw [if_neg h4] at h
  by_cases h5 : (c == ',') = true
  · rw [if_pos h5] at h
    cases h
    exact trivial
  rw [if_neg h5] at h
  by_cases h6 : (c == ':') = true
  · exact absurd (by simpa using h6) hc
  rw [if_neg h6] at h
  by_cases h7 : (c == '"') = true
  · rw [if_pos h7] at h
    cases h
    exact trivial
  rw [if_neg h7] at h
  by_cases h8 : (c == 't') = true
  · rw [if_pos h8] at h
    cases h
    show ':' ∉ _
    decide
  rw [if_neg h8] at h
  by_cases h9 : (c == 'f') = true
  · rw [if_pos h9] at h
    cases h
    show ':' ∉ _
    decide
  rw [if_neg h9] at h
  by_cases h10 : (c == 'n') = true
  · rw [if_pos h10] at h
    cases h
    show ':' ∉ _
    decide
  rw [if_neg h10] at h
  by_cases h11 : (c == '-' || isDigit c) = true
  · rw [if_pos h11] at h
    cases h
    exact trivial
  rw [if_neg h11] at h
  cases h

/-- Alignment is kept by a lenient step on a character that is not a colon. -/
theorem aligned_step (m m' : Mode) (c : Char) (rest : List Char) (out : List Token)
    (hc : c ≠ ':') (hN : m = .afterColon → c ≠ 'N') (ha : Aligned m (c :: rest))
    (h : step true m c rest = some (out, m')) : Aligned m' rest := by
  cases m with
  | start => exact aligned_startStep c out m' rest hc h
  | afterColon =>
    have hN' : (c == 'N') = false := by simpa using hN rfl
    simp only [step, afterColonStep, hN', Bool.false_eq_true, if_false] at h
    split at h
    · rename_i hj
      simp only [Option.some.injEq, Prod.mk.injEq] at h
      rw [← h.2]
      have hm : matchNaN (c :: rest) = none := ha
      rw [matchNaN_cons, if_pos (isRegexSpace_of_isJsonSpace c hj)] at hm
      exact hm
    · exact aligned_startStep c out m' rest hc h
  | word todo v =>
    have hm : ':' ∉ todo := ha
    match todo, hm, h with
    | [e], _, h =>
      simp only [step, wordStep_one] at h
      split at h
      · simp only [Option.some.injEq, Prod.mk.injEq] at h
        rw [← h.2]
        simp [Aligned]
      · cases h
    | e :: f :: es, hm, h =>
      simp only [step, wordStep] at h
      split at h
      · simp only [Option.some.injEq, Prod.mk.injEq] at h
        rw [← h.2]
        simp only [Aligned]
        intro hmem
        exact hm (List.mem_cons_of_mem _ hmem)
      · cases h
  | number acc =>
    simp only [step, numberStep] at h
    split at h
    · simp only [Option.some.injEq, Prod.mk.injEq] at h
      rw [← h.2]
      simp [Aligned]
    · split at h
      · rename_i n ts1 m1 hn hs
        simp only [Option.some.injEq, Prod.mk.injEq] at h
        rw [← h.2]
        exact aligned_startStep c ts1 m1 rest hc hs
      · cases h
  | string acc =>
    rw [show step true (.string acc) c rest = stringStep true acc c rest from rfl] at h
    unfold stringStep at h
    by_cases h0 : (c == '"') = true
    · rw [if_pos h0] at h
      cases h
      exact trivial
    rw [if_neg h0] at h
    by_cases h1 : (c == '\\') = true
    · rw [if_pos h1] at h
      cases h
      exact trivial
    rw [if_neg h1] at h
    by_cases h2 : c.toNat < 0x20
    · rw [if_pos h2] at h
      cases h
    rw [if_neg h2] at h
    by_cases h3 : (true && c == ':' && (matchNaN rest).isSome) = true
    · rw [if_pos h3] at h
      cases h
    rw [if_neg h3] at h
    cases h
    exact trivial
  | escape acc =>
    rw [show step true (.escape acc) c rest = escapeStep acc c from rfl] at h
    unfold escapeStep at h
    by_cases h0 : (c == '"') = true
    · rw [if_pos h0] at h
      cases h
      exact trivial
    rw [if_neg h0] at h
    by_cases h1 : (c == '\\') = true
    · rw [if_pos h1] at h
      cases h
      exact trivial
    rw [if_neg h1] at h
    by_cases h2 : (c == '/') = true
    · rw [if_pos h2] at h
      cases h
      exact trivial
    rw [if_neg h2] at h
    by_cases h3 : (c == 'b') = true
    · rw [if_pos h3] at h
      cases h
      exact trivial
    rw [if_neg h3] at h
    by_cases h4 : (c == 'f') = true
    · rw [if_pos h4] at h
      cases h
      exact trivial
    rw [if_neg h4] at h
    by_cases h5 : (c == 'n') = true
    · rw [if_pos h5] at h
      cases h
      exact trivial
    rw [if_neg h5] at h
    by_cases h6 : (c == 'r') = true
    · rw [if_pos h6] at h
      cases h
      exact trivial
    rw [if_neg h6] at h
    by_cases h7 : (c == 't') = true
    · rw [if_pos h7] at h
      cases h
      exact trivial
    rw [if_neg h7] at h
    by_cases h8 : (c == 'u') = true
    · rw [if_pos h8] at h
      cases h
      exact trivial
    rw [if_neg h8] at h
    cases h
  | hex acc ds =>
    rw [show step true (.hex acc ds) c rest = hexStep acc ds c from rfl] at h
    unfold hexStep at h
    split at h
    · cases h
    · by_cases h0 : (ds.length == 3) = true
      · rw [if_pos h0] at h
        cases h
        exact trivial
      · rw [if_neg h0] at h
        cases h
        exact trivial

/-- A lenient step on a colon is also a step of `JSON.parse`; it leads right after a colon, or
stays inside a string at a colon where `\s*NaN` does not match. -/
theorem step_colon (m m' : Mode) (rest : List Char) (out : List Token)
    (ha : Aligned m (':' :: rest)) (h : step true m ':' rest = some (out, m')) :
    (∀ cs, step false m ':' cs = some (out, m')) ∧
      (m' = .afterColon ∨ ((∃ acc, m' = .string acc) ∧ matchNaN rest = none)) := by
  cases m with
  | start =>
    rw [show step true .start ':' rest = some ([.colon], .afterColon) from rfl] at h
    cases h
    exact ⟨fun _ => rfl, Or.inl rfl⟩
  | afterColon =>
    rw [show step true .afterColon ':' rest = some ([.colon], .afterColon) from rfl] at h
    cases h
    exact ⟨fun _ => rfl, Or.inl rfl⟩
  | word todo v =>
    have hm : ':' ∉ todo := ha
    exfalso
    match todo, hm, h with
    | [], _, h => cases h
    | [e], hm, h =>
      have he : ¬ ':' = e := by
        intro he
        exact hm (by rw [he]; exact List.mem_cons_self _ _)
      rw [show step true (.word [e] v) ':' rest = wordStep [e] v ':' from rfl, wordStep_one,
        if_neg he] at h
      cases h
    | e :: f :: es, hm, h =>
      have he : (':' == e) = false := by
        rw [beq_eq_false_iff_ne]
        intro he
        exact hm (by rw [he]; exact List.mem_cons_self _ _)
      simp only [step, wordStep, he, Bool.false_eq_true, if_false] at h
      cases h
  | number acc =>
    rw [show step true (.number acc) ':' rest = numberStep acc ':' from rfl] at h
    unfold numberStep at h
    rw [if_neg (by decide), startStep_colon] at h
    cases hn : readNumber acc with
    | none => simp [hn] at h
    | some n =>
      simp only [hn, Option.some.injEq, Prod.mk.injEq] at h
      obtain ⟨h1, h2⟩ := h
      subst h1 h2
      refine ⟨fun cs => ?_, Or.inl rfl⟩
      rw [show step false (.number acc) ':' cs = numberStep acc ':' from rfl]
      unfold numberStep
      rw [if_neg (by decide), startStep_colon, hn]
  | string acc =>
    rw [show step true (.string acc) ':' rest = stringStep true acc ':' rest from rfl] at h
    unfold stringStep at h
    rw [if_neg (by decide), if_neg (by decide), if_neg (by decide)] at h
    cases hm : matchNaN rest with
    | some r =>
      rw [hm] at h
      rw [if_pos (by simp)] at h
      cases h
    | none =>
      rw [hm] at h
      rw [if_neg (by simp)] at h
      cases h
      exact ⟨fun _ => rfl, Or.inr ⟨⟨_, rfl⟩, rfl⟩⟩
  | escape acc => cases h
  | hex acc ds => cases h

theorem matchNaN_N_a_N (rest : List Char) : matchNaN ('N' :: 'a' :: 'N' :: rest) = some rest := by
  rw [matchNaN_cons, if_neg (by decide), if_pos rfl]
  simp [matchAN]

theorem tokens_cons_some (l : Bool) (m m' : Mode) (c : Char) (cs : List Char)
    (out ts : List Token) (hstep : step l m c cs = some (out, m'))
    (htok : tokens l m' cs = some ts) : tokens l m (c :: cs) = some (out ++ ts) := by
  rw [tokens_cons, hstep]
  simp only [htok]

/-- The correspondence: from an aligned mode, the tokens the lenient grammar reads from a text
are the tokens of the rewritten text in the grammar of `JSON.parse`. -/
theorem tokens_replaceNaN (n : Nat) :
    ∀ (cs : List Char), cs.length ≤ n → ∀ (m : Mode) (ts : List Token), Aligned m cs →
      tokens true m cs = some ts → tokens false m (replaceNaNChars cs) = some ts := by
  induction n with
  | zero =>
    intro cs hlen m ts _ h
    have : cs = [] := List.length_eq_zero.mp (Nat.le_zero.mp hlen)
    subst this
    rw [replaceNaNChars_nil, tokens_nil]
    rw [tokens_nil] at h
    exact h
  | succ n ih =>
    intro cs hlen m ts ha h
    cases cs with
    | nil =>
      rw [replaceNaNChars_nil, tokens_nil]
      rw [tokens_nil] at h
      exact h
    | cons c rest =>
      have hrest : rest.length ≤ n := by
        simp only [List.length_cons] at hlen
        omega
      rw [tokens_cons] at h
      cases hs : step true m c rest with
      | none => simp [hs] at h
      | some p =>
        obtain ⟨out, m'⟩ := p
        cases hr : tokens true m' rest with
        | none => simp [hs, hr] at h
        | some ts1 =>
          simp only [hs, hr, Option.some.injEq] at h
          subst h
          by_cases hc : c = ':'
          · subst hc
            obtain ⟨hstrict, hcase⟩ := step_colon m m' rest out ha hs
            cases hm : matchNaN rest with
            | none =>
              rw [replaceNaNChars_colon_none rest hm]
              have ha' : Aligned m' rest := by
                rcases hcase with h1 | ⟨⟨acc, h1⟩, _⟩
                · subst h1
                  exact hm
                · subst h1
                  exact trivial
              exact tokens_cons_some false m m' ':' _ out ts1 (hstrict _)
                (ih rest hrest m' ts1 ha' hr)
            | some rest' =>
              have hm' : m' = .afterColon := by
                rcases hcase with h1 | ⟨_, h2⟩
                · exact h1
                · rw [hm] at h2
                  cases h2
              subst hm'
              obtain ⟨ts', htok, hts⟩ := tokens_afterColon_match rest rest' ts1 hm hr
              have hl := matchNaN_length rest rest' hm
              rw [replaceNaNChars_colon_some rest rest' hm]
              refine tokens_cons_some false m .afterColon ':' _ out ts1 (hstrict _) ?_
              rw [tokens_null_literal, ih rest' (by omega) .start ts' trivial htok, hts]
          · by_cases hN : m = .afterColon ∧ c = 'N'
            · exfalso
              obtain ⟨h1, h2⟩ := hN
              subst h1 h2
              have hstep : step true .afterColon 'N' rest
                  = some ([], .word ['a', 'N'] .null) := rfl
              rw [hstep] at hs
              cases hs
              obtain ⟨rest', _, hrest', _, _⟩ := tokens_word_aN true .null rest ts1 hr
              subst hrest'
              have hm : matchNaN ('N' :: 'a' :: 'N' :: rest') = none := ha
              rw [matchNaN_N_a_N] at hm
              cases hm
            · have hN' : m = .afterColon → c ≠ 'N' := fun h1 h2 => hN ⟨h1, h2⟩
              rw [replaceNaNChars_cons_ne c rest hc]
              refine tokens_cons_some false m m' c _ out ts1 ?_
                (ih rest hrest m' ts1 (aligned_step m m' c rest out hc hN' ha hs) hr)
              rw [← step_eq m c rest (replaceNaNChars rest) hc hN', hs]

/-- A text of the NaN-tolerant grammar parses, after the rewrite, to the same value with
`JSON.parse`. -/
theorem parseText_replaceNaN (s : String) (v : JVal) (h : parseText true s = some v) :
    parseText false (replaceNaN s) = some v := by
  unfold parseText at h ⊢
  cases ht : tokens true .start s.data with
  | none => simp [ht] at h
  | some ts =>
    rw [ht] at h
    have hsim := tokens_replaceNaN s.data.length s.data (le_refl _) .start ts trivial ht
    rw [show (replaceNaN s).data = replaceNaNChars s.data from rfl, hsim]
    exact h

/-! ## Mapping over an array -/

/-- A callback that does not throw on any entry maps the array to the list of its results. -/
theorem mapM_ok (f : JVal → Except JsError JVal) (g : JVal → JVal) (xs : List JVal)
    (h : ∀ x ∈ xs, f x = .ok (g x)) : xs.mapM f = .ok (xs.map g) := by
  induction xs with
  | nil => rfl
  | cons x xs ih =>
    have hx := h x (List.mem_cons_self _ _)
    have ih' := ih fun y hy => h y (List.mem_cons_of_mem _ hy)
    rw [List.mapM_cons, hx, ih']
    rfl

/-- Reading a property of a value that is neither `null` nor `undefined` does not throw. -/
theorem prop_ok (v : JVal) (k : String) (h : v.nullish = false) : v.prop k = .ok (v.field k) := by
  simp [JVal.prop, h]

/-- The product of a whole number and a positive `k` is exact while it stays within 53 bits. -/
theorem mulNat_whole (neg : Bool) (m e k : Nat) (hk : 0 < k) (h : m * 10 ^ e * k ≤ 2 ^ 53) :
    (JNum.fin neg m (Int.ofNat e)).mulNat k = .fin neg (m * 10 ^ e * k) 0 := by
  have hle : m * 10 ^ e ≤ 2 ^ 53 := le_trans (Nat.le_mul_of_pos_right _ hk) h
  have hle' : ¬ 9007199254740992 < m * 10 ^ e := by
    have : (2 : Nat) ^ 53 = 9007199254740992 := by norm_num
    omega
  have h' : ¬ 9007199254740992 < m * 10 ^ e * k := by
    have : (2 : Nat) ^ 53 = 9007199254740992 := by norm_num
    omega
  by_cases hm : m = 0
  · subst hm
    simp [JNum.mulNat, nearestExact, roundToDouble]
  · have h1 : nearestExact m (Int.ofNat e) = some (m * 10 ^ e, 0) := by
      simp [nearestExact, hm, hle']
    have h2 : nearestExact (m * 10 ^ e * k) 0 = some (m * 10 ^ e * k, 0) := by
      by_cases hz : m * 10 ^ e * k = 0
      · simp [nearestExact, hz]
      · simp [nearestExact, hz, h']
    simp only [JNum.mulNat, h1, roundToDouble, h2]
    simp [h']

/-- The product of a whole number of days and 24. -/
theorem times24_whole (neg : Bool) (m e : Nat) (h : m * 10 ^ e * 24 ≤ 2 ^ 53) :
    times24 (.num (.fin neg m (Int.ofNat e))) = .num (.fin neg (m * 10 ^ e * 24) 0) :=
  congrArg JVal.num (mulNat_whole neg m e 24 (by decide) h)

/-- The product `0.1 * 24` is rounded to the nearest double. -/
theorem times24_tenth :
    times24 (.num (.fin false 1 (-1))) = .num (.fin false 24000000000000004 (-16)) :=
  congrArg JVal.num (by decide)

/-- The product `1e308 * 24` overflows. -/
theorem times24_overflow : times24 (.num (.fin false 1 308)) = .num (.inf false) :=
  congrArg JVal.num (by decide!)

/-- The product `-1.5 * 24`. -/
theorem times24_fraction :
    times24 (.num (.fin true 15 (-1))) = .num (.fin true 36 0) :=
  congrArg JVal.num (by decide)

/-- The products `[] * 24`, `[5] * 24` and `[1, 2] * 24`. -/
theorem times24_array :
    times24 (.arr []) = .num (.fin false 0 0) ∧
    times24 (.arr [.num (.fin false 5 0)]) = .num (.fin false 120 0) ∧
    times24 (.arr [.num (.fin false 1 0), .num (.fin false 2 0)]) = .num .nan :=
  ⟨congrArg JVal.num (by decide), congrArg JVal.num (by decide), congrArg JVal.num (by decide)⟩

/-- The products of texts and 24. -/
theorem times24_text :
    times24 (.str "3") = .num (.fin false 72 0) ∧
    times24 (.str " 0x10 ") = .num (.fin false 384 0) ∧
    times24 (.str "-2.5e1") = .num (.fin true 600 0) ∧
    times24 (.str "") = .num (.fin false 0 0) ∧
    times24 (.str "abc") = .num .nan ∧
    times24 (.str "-Infinity") = .num (.inf true) :=
  ⟨congrArg JVal.num (by decide), congrArg JVal.num (by decide), congrArg JVal.num (by decide),
    congrArg JVal.num (by decide), congrArg JVal.num (by decide), congrArg JVal.num (by decide)⟩

/-- The products of the other values and 24. -/
theorem times24_other :
    times24 .undefined = .num .nan ∧
    times24 .null = .num (.fin false 0 0) ∧
    times24 (.bool true) = .num (.fin false 24 0) ∧
    times24 (.obj []) = .num .nan ∧
    times24 (.num .nan) = .num .nan ∧
    times24 (.num (.inf true)) = .num (.inf true) ∧
    times24 (.num (.fin true 0 0)) = .num (.fin true 0 0) :=
  ⟨congrArg JVal.num (by decide), congrArg JVal.num (by decide), congrArg JVal.num (by decide),
    congrArg JVal.num (by decide), congrArg JVal.num (by decide), congrArg JVal.num (by decide),
    congrArg JVal.num (by decide)⟩

/-! ## The chart memos on well-formed data -/

/-- A column of rows that are neither `null` nor `undefined` is the list of their fields. -/
theorem column_ok (rows : List JVal) (key : String) (h : ∀ r ∈ rows, r.nullish = false) :
    column (.arr rows) key = .ok (.arr (rows.map fun r => r.field key)) := by
  simp only [column]
  rw [mapM_ok (fun r => r.prop key) (fun r => r.field key) rows
    (fun r hr => prop_ok r key (h r hr))]
  rfl

/-- The trace of a model entry that is neither `null` nor `undefined`. -/
theorem forecastTrace_ok (preview x m : JVal) (h : m.nullish = false) :
    forecastTrace preview x m
      = .ok (.obj [("x", x), ("y", m.field "predicted_values"), ("type", .str "scatter"),
          ("mode", .str "lines+markers"), ("name", .str (traceName preview m))]) := by
  simp [forecastTrace, prop_ok m _ h, Except.map]

/-- The traces of a non-null preview whose `models` is a sequence of entries. -/
theorem forecastTraces_ok (preview : JVal) (ms : List JVal)
    (hp : preview.truthy = true) (hms : preview.field "models" = .arr ms)
    (h : ∀ m ∈ ms, m.nullish = false) :
    forecastTraces preview
      = .ok (.arr (ms.map fun m =>
          .obj [("x", preview.field "dates"), ("y", m.field "predicted_values"),
            ("type", .str "scatter"), ("mode", .str "lines+markers"),
            ("name", .str (traceName preview m))])) := by
  have hor : (JVal.arr ms).or (.arr []) = .arr ms := rfl
  simp only [forecastTraces, hp, hms, hor, Bool.not_true, Bool.false_eq_true, if_false]
  rw [mapM_ok _ _ ms (fun m hm => forecastTrace_ok preview _ m (h m hm))]
  rfl

/-- The candlestick memo on a row sequence: empty, or the columns of the rows. -/
theorem candlestick_like (rows : List JVal) (dataset : JVal) :
    (rows = [] ∨ dataset.truthy = false → candlestick (.arr rows) dataset = .ok (.obj [])) ∧
    (rows ≠ [] → dataset.truthy = true → (∀ r ∈ rows, r.nullish = false) →
      candlestick (.arr rows) dataset
        = .ok (.obj [("x", .arr (rows.map fun r => r.field "date")),
            ("open", .arr (rows.map fun r => r.field "open")),
            ("high", .arr (rows.map fun r => r.field "high")),
            ("low", .arr (rows.map fun r => r.field "low")),
            ("close", .arr (rows.map fun r => r.field "close")),
            ("type", .str "candlestick"),
            ("name", .str (toStr (dataset.field "symbol") ++ " OHLCV"))])) := by
  have hlen : (JVal.arr rows).prop "length" = .ok (.num (.ofNat rows.length)) := rfl
  constructor
  · intro h
    simp only [candlestick, hlen, Except.bind]
    rcases h with h | h
    · subst h
      rfl
    · simp [h]
  · intro hne hd hrows
    have hpos : (JVal.num (.ofNat rows.length)).truthy = true := by
      simp [JVal.truthy, JNum.ofNat, List.length_eq_zero, hne]
    simp only [candlestick, hlen, Except.bind, hpos, hd, column_ok rows _ hrows]
    rfl

/-! ## Helper facts on the error message, the catalog and the model set -/

/-- The expression `a || b` when `a` is truthy. -/
theorem or_of_truthy (a b : JVal) (h : a.truthy = true) : a.or b = a := by
  simp [JVal.or, h]

/-- The expression `a || b` when `a` is falsy. -/
theorem or_of_falsy (a b : JVal) (h : a.truthy = false) : a.or b = b := by
  simp [JVal.or, h]

/-- The catalog loader returns an array for every outcome of its request. -/
theorem loadDatasets_array (resp : Response) : ∃ xs, loadDatasets resp = .ok (.arr xs) := by
  cases resp with
  | error e => exact ⟨[], rfl⟩
  | ok data =>
    cases data with
    | str s =>
      simp only [loadDatasets]
      cases parseBody s with
      | none => exact ⟨[], rfl⟩
      | some v => cases v <;> first | exact ⟨[], rfl⟩ | exact ⟨_, rfl⟩
    | arr xs => exact ⟨xs, rfl⟩
    | _ => exact ⟨[], rfl⟩

/-- Membership in `Array.from(new Set(xs))` is membership in `xs`. -/
theorem mem_arrayFromSet (xs : List String) (x : String) : x ∈ arrayFromSet xs ↔ x ∈ xs := by
  induction xs with
  | nil => simp [arrayFromSet]
  | cons y ys ih =>
    simp only [arrayFromSet, List.mem_cons, List.mem_filter, bne_iff_ne, ne_eq, ih]
    constructor
    · rintro (h | ⟨h, _⟩)
      · exact Or.inl h
      · exact Or.inr h
    · rintro (h | h)
      · exact Or.inl h
      · by_cases hxy : x = y
        · exact Or.inl hxy
        · exact Or.inr ⟨h, hxy⟩

/-- The list `Array.from(new Set(xs))` has no duplicates. -/
theorem arrayFromSet_nodup (xs : List String) : (arrayFromSet xs).Nodup := by
  induction xs with
  | nil => simp [arrayFromSet]
  | cons y ys ih =>
    simp only [arrayFromSet, List.nodup_cons, List.mem_filter, bne_iff_ne, ne_eq,
      not_true_eq_false, and_false, not_false_eq_true, true_and]
    exact ih.filter _

/-- On a list without duplicates `Array.from(new Set(xs))` is the list itself. -/
theorem arrayFromSet_of_nodup (xs : List String) (h : xs.Nodup) : arrayFromSet xs = xs := by
  induction xs with
  | nil => rfl
  | cons y ys ih =>
    rw [List.nodup_cons] at h
    simp only [arrayFromSet, ih h.2, List.cons.injEq, true_and]
    rw [List.filter_eq_self]
    intro a ha
    simp only [bne_iff_ne, ne_eq]
    rintro rfl
    exact h.1 ha

/-- The updater of the model toggle keeps the list free of duplicates, whatever `selected`
was at the render. -/
theorem toggleUpdater_nodup (selected : Bool) (prev : List String) (id : String)
    (h : prev.Nodup) : (toggleUpdater selected prev id).Nodup := by
  unfold toggleUpdater
  split
  · exact h.filter _
  · exact arrayFromSet_nodup _

/-- Membership after a click on the button of `id`. -/
theorem mem_toggleModel (models : List String) (id x : String) :
    x ∈ toggleModel models id ↔ (x ∈ models ∧ x ≠ id) ∨ (x = id ∧ id ∉ models) := by
  unfold toggleModel toggleUpdater
  by_cases h : id ∈ models
  · have hc : models.contains id = true := by simpa using h
    simp [hc, List.mem_filter, h]
  · have hc : models.contains id = false := by simpa using h
    simp only [hc, Bool.false_eq_true, if_false, mem_arrayFromSet, List.mem_append,
      List.mem_singleton, h, not_false_eq_true, and_true]
    constructor
    · rintro (hx | hx)
      · exact Or.inl ⟨hx, fun hxi => h (hxi ▸ hx)⟩
      · exact Or.inr hx
    · rintro (hx | hx)
      · exact Or.inl hx.1
      · exact Or.inr hx

/-- The `try` block of `handleSubmit` on days that are not an integer of at least 1: no
request, the error outcome, and `isGenerating` reset. -/
theorem submitBody_invalid_days (s : GeneratorState) (resp : Response)
    (h : invalidDays (parseInt s.generatorForm.days) = true) :
    (submitBody s resp).requests = [] ∧
    (submitBody s resp).state.genOutcome
      = .obj [("success", .bool false), ("error", .str "Days must be a positive number")] ∧
    (submitBody s resp).state.isGenerating = false ∧ (submitBody s resp).thrown = none := by
  simp only [submitBody, h, if_true]
  refine ⟨trivial, ?_, trivial, trivial⟩
  rfl

/-! ## Refresh when the forecast half fails -/

theorem errorMessage_server (e : JsError) (body : JVal) (m fallback : String)
    (hresp : e.response = some body) (herr : body.propOpt "error" = .str m) (hm : m ≠ "") :
    errorMessage e fallback = .str m := by
  simp [errorMessage, serverMessage, hresp, herr, JVal.or, JVal.truthy, hm]

/-- C1 (as the code has it): when refresh runs with a dataset chosen, the price request succeeds
and the forecast request fails with an error response whose body carries the non-empty message
`m`, nothing of the price half is applied: `ohlcvRows`, `datasetLoaded` and `forecastPreview`
are as before the refresh, `error` is `m` and `loading` is false. -/
theorem refresh_forecast_failure_keeps_state (s : State) (pricesBody body : JVal)
    (e : JsError) (m : String) (forecastFirst : Bool) (hist stored : Response)
    (hchosen : s.chosenDataset.truthy = true) (hprices : pricesBody.nullish = false)
    (hresp : e.response = some body) (herr : body.propOpt "error" = .str m) (hm : m ≠ "") :
    let r := refresh s (.ok pricesBody) (.error e) forecastFirst hist stored
    r.result.ohlcvRows = s.ohlcvRows ∧ r.result.datasetLoaded = s.datasetLoaded ∧
    r.result.forecastPreview = s.forecastPreview ∧ r.result.error = .str m ∧
    r.result.loading = false ∧ r.result.chosenDataset = s.chosenDataset := by
  have hmsg := errorMessage_server e body m "Failed to load" hresp herr hm
  simp only [refresh, hchosen, loadPricesFromDataset, runForecast]
  by_cases hsym : (s.chosenDataset.field "symbol").truthy = true
  · simp [hsym, promiseAll, JVal.prop, hprices, Except.bind, Except.map, hmsg]
  · simp [hsym, promiseAll, Except.bind, hmsg]

/-- Witness for C1: 10 rows fetched, the forecast answered 500 with
`{"error": "model unavailable"}`, from the freshly selected AAPL dataset. -/
theorem refresh_forecast_failure_keeps_state_witness :
    (refresh { State.initial with chosenDataset := aapl }
        (.ok (.obj [("rows", .arr (List.replicate 10 sampleRow))]))
        (.error modelUnavailable) false (.ok .null) (.ok .null)).result.ohlcvRows = .arr [] ∧
    (refresh { State.initial with chosenDataset := aapl }
        (.ok (.obj [("rows", .arr (List.replicate 10 sampleRow))]))
        (.error modelUnavailable) false (.ok .null) (.ok .null)).result.datasetLoaded = false ∧
    (refresh { State.initial with chosenDataset := aapl }
        (.ok (.obj [("rows", .arr (List.replicate 10 sampleRow))]))
        (.error modelUnavailable) false (.ok .null) (.ok .null)).result.forecastPreview = .null ∧
    (refresh { State.initial with chosenDataset := aapl }
        (.ok (.obj [("rows", .arr (List.replicate 10 sampleRow))]))
        (.error modelUnavailable) false (.ok .null) (.ok .null)).result.error
      = .str "model unavailable" :=
  have h := refresh_forecast_failure_keeps_state { State.initial with chosenDataset := aapl }
    (.obj [("rows", .arr (List.replicate 10 sampleRow))])
    (.obj [("error", .str "model unavailable")]) modelUnavailable "model unavailable" false
    (.ok .null) (.ok .null) rfl rfl rfl rfl (by decide)
  ⟨h.1, h.2.1, h.2.2.1, h.2.2.2.1⟩

/-- C1 fails as stated: a refresh from the freshly selected AAPL dataset, with a price response
of 10 rows and the forecast request answered 500 `{"error": "model unavailable"}`, sends both
requests and ends with no rows and the dataset not loaded, not with the 10 rows loaded. -/
theorem refresh_partial_failure_counterexample :
    (refresh { State.initial with chosenDataset := aapl }
        (.ok (.obj [("rows", .arr (List.replicate 10 sampleRow))]))
        (.error modelUnavailable) false (.ok .null) (.ok .null)).requests.length = 2 ∧
    (refresh { State.initial with chosenDataset := aapl }
        (.ok (.obj [("rows", .arr (List.replicate 10 sampleRow))]))
        (.error modelUnavailable) false (.ok .null) (.ok .null)).result.ohlcvRows = .arr [] ∧
    (refresh { State.initial with chosenDataset := aapl }
        (.ok (.obj [("rows", .arr (List.replicate 10 sampleRow))]))
        (.error modelUnavailable) false (.ok .null) (.ok .null)).result.datasetLoaded = false ∧
    ¬ ((refresh { State.initial with chosenDataset := aapl }
          (.ok (.obj [("rows", .arr (List.replicate 10 sampleRow))]))
          (.error modelUnavailable) false (.ok .null) (.ok .null)).result.ohlcvRows
        = .arr (List.replicate 10 sampleRow) ∧
       (refresh { State.initial with chosenDataset := aapl }
          (.ok (.obj [("rows", .arr (List.replicate 10 sampleRow))]))
          (.error modelUnavailable) false (.ok .null) (.ok .null)).result.datasetLoaded
        = true) :=
  ⟨rfl, rfl, rfl, fun h => Bool.noConfusion (h.2 : false = true)⟩

/-! ## Selecting a dataset -/

theorem findById_eq_find (ds : List JVal) (value : String)
    (hds : ∀ d ∈ ds, d.nullish = false) :
    findById ds value
      = .ok ((ds.find? fun d => (d.field "_id").strictEqStr value).getD .undefined) := by
  induction ds with
  | nil => rfl
  | cons d ds ih =>
    have hd : d.nullish = false := hds d (List.mem_cons_self _ _)
    have ih' := ih fun x hx => hds x (List.mem_cons_of_mem _ hx)
    simp only [findById, JVal.prop, hd, List.find?_cons]
    by_cases h : (d.field "_id").strictEqStr value = true
    · simp [h]
    · simp [h, ih']

/-- C3: in every state whose catalog has no `null` or `undefined` entry (the states in which the
select can be rendered), choosing the option `value` completes, sends no request, and yields
`ohlcvRows = []`, `forecastPreview = null`, `datasetLoaded = false` and `chosenDataset` the first
catalog entry whose `_id` is `value` (`undefined` when there is none), whatever the previous
rows, preview and loaded flag were; every other state variable is unchanged. -/
theorem selectDataset_hard_reset (s : State) (ds : List JVal) (value : String)
    (hcat : s.datasets = .arr ds) (hds : ∀ d ∈ ds, d.nullish = false) :
    ∃ r, selectDataset s value = .ok r ∧ r.requests = [] ∧
      r.result.ohlcvRows = .arr [] ∧ r.result.forecastPreview = .null ∧
      r.result.datasetLoaded = false ∧
      r.result.chosenDataset
        = ((ds.find? fun d => (d.field "_id").strictEqStr value).getD .undefined) ∧
      r.result.datasets = s.datasets ∧ r.result.models = s.models ∧
      r.result.horizon = s.horizon ∧ r.result.ensemble = s.ensemble ∧
      r.result.error = s.error ∧ r.result.loading = s.loading := by
  simp [selectDataset, hcat, findById_eq_find ds value hds, Except.map]

/-- Witness for C3: selecting `d2` while the forecast for AAPL is displayed. -/
theorem selectDataset_hard_reset_witness :
    ∃ r, selectDataset forecastedState "d2" = .ok r ∧ r.requests = [] ∧
      r.result.ohlcvRows = .arr [] ∧ r.result.forecastPreview = .null ∧
      r.result.datasetLoaded = false ∧
      r.result.chosenDataset = .obj [("_id", .str "d2"), ("symbol", .str "MSFT")] ∧
      r.result.datasets = forecastedState.datasets ∧ r.result.models = forecastedState.models ∧
      r.result.horizon = forecastedState.horizon ∧ r.result.ensemble = forecastedState.ensemble ∧
      r.result.error = forecastedState.error ∧ r.result.loading = forecastedState.loading :=
  selectDataset_hard_reset forecastedState
    [aapl, .obj [("_id", .str "d2"), ("symbol", .str "MSFT")]] "d2" rfl
    (by intro d hd; simp at hd; rcases hd with rfl | rfl <;> rfl)

/-! ## When a forecast request is sent -/

/-- C4 (as the code has it): `runForecastOnly` sends a forecast request only when the dataset is
loaded and chosen, and otherwise is rejected locally with the message
`Please load a dataset first` and no request; its button is enabled only when, in addition,
`models` is non-empty and nothing is loading. `refresh` sends a forecast request only when a
dataset is chosen, and otherwise is rejected locally with `Please select a dataset first` and no
request; it does not require the dataset to be loaded. -/
theorem forecast_request_gating (s : State) (prices forecast hist stored : Response)
    (first : Bool) :
    ((∃ q ∈ (runForecastOnly s forecast hist stored).requests, q.isForecastRun = true) →
        s.datasetLoaded = true ∧ s.chosenDataset.truthy = true) ∧
    (¬ (s.datasetLoaded = true ∧ s.chosenDataset.truthy = true) →
        (runForecastOnly s forecast hist stored).requests = [] ∧
        (runForecastOnly s forecast hist stored).result
          = { s with error := .str "Please load a dataset first" }) ∧
    (runForecastEnabled s = true →
        s.models ≠ [] ∧ s.datasetLoaded = true ∧ s.loading = false) ∧
    ((∃ q ∈ (refresh s prices forecast first hist stored).requests, q.isForecastRun = true) →
        s.chosenDataset.truthy = true) ∧
    (¬ s.chosenDataset.truthy = true →
        (refresh s prices forecast first hist stored).requests = [] ∧
        (refresh s prices forecast first hist stored).result
          = { s with error := .str "Please select a dataset first" }) := by
  refine ⟨?_, ?_, ?_, ?_, ?_⟩
  · intro ⟨q, hq, hrun⟩
    by_contra hne
    have : (runForecastOnly s forecast hist stored).requests = [] := by
      unfold runForecastOnly
      rw [if_pos]
      simp only [not_and_or] at hne
      rcases hne with h | h <;> simp [h]
    rw [this] at hq
    simp at hq
  · intro hne
    unfold runForecastOnly
    rw [if_pos]
    · exact ⟨rfl, rfl⟩
    · simp only [not_and_or] at hne
      rcases hne with h | h <;> simp [h]
  · intro h
    simp only [runForecastEnabled, Bool.not_eq_true', Bool.or_eq_false_iff, Bool.not_eq_false',
      beq_eq_false_iff_ne, ne_eq, List.length_eq_zero] at h
    exact ⟨h.2, h.1.2, h.1.1⟩
  · intro ⟨q, hq, hrun⟩
    by_contra hne
    have : (refresh s prices forecast first hist stored).requests = [] := by
      unfold refresh
      rw [if_pos]
      simpa using hne
    rw [this] at hq
    simp at hq
  · intro hne
    unfold refresh
    rw [if_pos]
    · exact ⟨rfl, rfl⟩
    · simpa using hne

/-- Witness for C4: the five parts at the forecasted state and at the initial state. -/
theorem forecast_request_gating_witness :
    (forecastedState.datasetLoaded = true ∧ forecastedState.chosenDataset.truthy = true) ∧
    ((runForecastOnly State.initial (.ok .null) (.ok .null) (.ok .null)).requests = [] ∧
      (runForecastOnly State.initial (.ok .null) (.ok .null) (.ok .null)).result
        = { State.initial with error := .str "Please load a dataset first" }) ∧
    (forecastedState.models ≠ [] ∧ forecastedState.datasetLoaded = true ∧
      forecastedState.loading = false) ∧
    forecastedState.chosenDataset.truthy = true ∧
    ((refresh State.initial (.ok .null) (.ok .null) false (.ok .null) (.ok .null)).requests = [] ∧
      (refresh State.initial (.ok .null) (.ok .null) false (.ok .null) (.ok .null)).result
        = { State.initial with error := .str "Please select a dataset first" }) :=
  ⟨(forecast_request_gating forecastedState (.ok .null) (.ok .null) (.ok .null) (.ok .null)
      false).1
      ⟨.postForecastRun (.str "AAPL") ["ma", "arima", "lstm"] 24 false,
        List.mem_singleton_self _, rfl⟩,
   (forecast_request_gating State.initial (.ok .null) (.ok .null) (.ok .null) (.ok .null)
      false).2.1 (by decide),
   (forecast_request_gating forecastedState (.ok .null) (.ok .null) (.ok .null) (.ok .null)
      false).2.2.1 rfl,
   (forecast_request_gating forecastedState (.ok .null) (.ok .null) (.ok .null) (.ok .null)
      false).2.2.2.1
      ⟨.postForecastRun (.str "AAPL") ["ma", "arima", "lstm"] 24 false,
        List.mem_cons_of_mem _ (List.mem_singleton_self _), rfl⟩,
   (forecast_request_gating State.initial (.ok .null) (.ok .null) (.ok .null) (.ok .null)
      false).2.2.2.2 (by decide)⟩

/-- C4 fails as stated: from the freshly selected, not yet loaded AAPL dataset, `refresh`
sends `POST /api/forecast/run` (after the price request) although `datasetLoaded` is false. -/
theorem refresh_forecast_unloaded_counterexample :
    ({ State.initial with chosenDataset := aapl } : State).datasetLoaded = false ∧
    ((refresh { State.initial with chosenDataset := aapl } (.ok (.obj [("rows", .arr [])]))
        (.ok (.obj [("preview", .null)])) false (.ok .null) (.ok .null)).requests.map
      Request.isForecastRun) = [false, true] := by
  decide

/-! ## The catalog loader always returns an array -/

/-- C7: whatever the catalog request gives, `loadDatasets` does not throw and returns an array:
the body itself when the body is an array; for a string body, the array it parses to after the
NaN rewrite, and the empty array when it fails to parse or parses to something that is not an
array; the empty array for every other body and for a failed request. -/
theorem loadDatasets_returns_array :
    (∀ resp, ∃ xs, loadDatasets resp = .ok (.arr xs)) ∧
    (∀ xs, loadDatasets (.ok (.arr xs)) = .ok (.arr xs)) ∧
    (∀ s, loadDatasets (.ok (.str s))
        = .ok (.arr (match parseBody s with | some (.arr xs) => xs | _ => []))) ∧
    (∀ e, loadDatasets (.error e) = .ok (.arr [])) ∧
    loadDatasets (.ok .undefined) = .ok (.arr []) ∧
    loadDatasets (.ok .null) = .ok (.arr []) ∧
    (∀ b, loadDatasets (.ok (.bool b)) = .ok (.arr [])) ∧
    (∀ n, loadDatasets (.ok (.num n)) = .ok (.arr [])) ∧
    (∀ kvs, loadDatasets (.ok (.obj kvs)) = .ok (.arr [])) := by
  have hstr : ∀ s, loadDatasets (.ok (.str s))
      = .ok (.arr (match parseBody s with | some (.arr xs) => xs | _ => [])) := by
    intro s
    simp only [loadDatasets]
    cases h : parseBody s with
    | none => rfl
    | some v => cases v <;> rfl
  refine ⟨?_, fun _ => rfl, hstr, fun _ => rfl, rfl, rfl, fun _ => rfl, fun _ => rfl,
    fun _ => rfl⟩
  intro resp
  cases resp with
  | error e => exact ⟨[], rfl⟩
  | ok data =>
    cases data with
    | str s => exact ⟨_, hstr s⟩
    | arr xs => exact ⟨xs, rfl⟩
    | _ => exact ⟨[], rfl⟩

/-! ## The price loader on a dataset without symbol -/

/-- C8 (as the code has it): for a dataset argument that is missing or has no symbol (symbol
missing, `null` or empty), `loadPricesFromDataset` sends no request and returns the empty row
sequence; it does not throw. -/
theorem loadPricesFromDataset_without_symbol (dataset : JVal) (resp : Response)
    (h : dataset.truthy = false ∨ (dataset.field "symbol").truthy = false) :
    (loadPricesFromDataset dataset resp).result = .ok (.arr []) ∧
    (loadPricesFromDataset dataset resp).requests = [] := by
  unfold loadPricesFromDataset
  rcases h with h | h <;> simp [h]

/-- Witness for C8: a dataset whose symbol is the empty string. -/
theorem loadPricesFromDataset_without_symbol_witness :
    (loadPricesFromDataset (.obj [("_id", .str "d1"), ("symbol", .str "")])
        (.ok (.obj [("rows", .arr [sampleRow])]))).result = .ok (.arr []) ∧
    (loadPricesFromDataset (.obj [("_id", .str "d1"), ("symbol", .str "")])
        (.ok (.obj [("rows", .arr [sampleRow])]))).requests = [] :=
  loadPricesFromDataset_without_symbol (.obj [("_id", .str "d1"), ("symbol", .str "")])
    (.ok (.obj [("rows", .arr [sampleRow])])) (Or.inr (by decide))

/-- C8 fails as stated: given a dataset with no `symbol` property, `loadPricesFromDataset`
does not throw, it returns the empty array. -/
theorem loadPricesFromDataset_no_throw_counterexample :
    ¬ ∃ e, (loadPricesFromDataset (.obj [("_id", .str "d1")])
        (.ok (.obj [("rows", .arr [sampleRow])]))).result = .error e := by
  rintro ⟨e, h⟩
  simp [loadPricesFromDataset, JVal.truthy, JVal.field, List.lookup] at h

/-! ## Loading the selected dataset -/

/-- C10: with a dataset chosen that has a symbol, when the price request of
`loadSelectedDataset` succeeds with a body whose `rows` is the sequence `R`, or with a body that
has no `rows`, the final state has `ohlcvRows = R` (respectively the empty sequence),
`forecastPreview = null`, `datasetLoaded = true`, `error = null` and `loading = false`; one
price request was sent. -/
theorem loadSelectedDataset_success (s : State) (body : JVal) (R : List JVal)
    (hchosen : s.chosenDataset.truthy = true)
    (hsym : (s.chosenDataset.field "symbol").truthy = true)
    (hbody : body.nullish = false)
    (hrows : body.field "rows" = .arr R ∨ (body.field "rows" = .undefined ∧ R = [])) :
    let r := loadSelectedDataset s (.ok body)
    r.result.ohlcvRows = .arr R ∧ r.result.forecastPreview = .null ∧
    r.result.datasetLoaded = true ∧ r.result.error = .null ∧ r.result.loading = false ∧
    r.result.chosenDataset = s.chosenDataset ∧
    r.requests = [.getPrices (s.chosenDataset.field "symbol")] := by
  have harr : ∀ xs b, (JVal.arr xs).or b = .arr xs := fun _ _ => rfl
  have hund : ∀ b, JVal.undefined.or b = b := fun _ => rfl
  rcases hrows with h | ⟨h, rfl⟩ <;>
    simp [loadSelectedDataset, loadPricesFromDataset, hchosen, hsym, JVal.prop, hbody, h,
      Except.bind, Except.map, harr, hund]

/-- Witness for C10: the price request of the AAPL dataset answers with no rows; the
dataset is loaded with an empty sequence and no error. -/
theorem loadSelectedDataset_success_witness :
    let r := loadSelectedDataset { State.initial with chosenDataset := aapl }
      (.ok (.obj [("rows", .arr [])]))
    r.result.ohlcvRows = .arr [] ∧ r.result.forecastPreview = .null ∧
    r.result.datasetLoaded = true ∧ r.result.error = .null ∧ r.result.loading = false ∧
    r.result.chosenDataset = aapl ∧
    r.requests = [.getPrices (.str "AAPL")] :=
  loadSelectedDataset_success { State.initial with chosenDataset := aapl }
    (.obj [("rows", .arr [])]) [] rfl rfl rfl (Or.inl rfl)

/-! ## Failures of a load and of a forecast run -/

theorem errorMessage_truthy (e : JsError) (fallback : String) (h : fallback ≠ "") :
    (errorMessage e fallback).truthy = true := by
  have key : ∀ a b : JVal, b.truthy = true → (a.or b).truthy = true := by
    intro a b hb
    unfold JVal.or
    split <;> assumption
  exact key _ _ (by simp [JVal.truthy, h])

/-- C9 (as the code has it): when the forecast call of `runForecastOnly` fails, the final state
is the state before the action in `chosenDataset`, `ohlcvRows`, `forecastPreview` and
`datasetLoaded`, with a non-null `error` and `loading` false. When the price call of
`loadSelectedDataset` fails, `chosenDataset` and `ohlcvRows` are as before the action,
`datasetLoaded` is reset to false, `error` is non-null and `loading` is false. -/
theorem failure_keeps_data (s : State) (prices forecast hist stored : Response)
    (e : JsError) :
    (s.datasetLoaded = true → s.chosenDataset.truthy = true →
      (runForecast s forecast).result = .error e →
      let r := (runForecastOnly s forecast hist stored).result
      r.chosenDataset = s.chosenDataset ∧ r.ohlcvRows = s.ohlcvRows ∧
      r.forecastPreview = s.forecastPreview ∧ r.datasetLoaded = s.datasetLoaded ∧
      r.error.truthy = true ∧ r.error = errorMessage e "Failed to run forecast" ∧
      r.loading = false) ∧
    (s.chosenDataset.truthy = true →
      (loadPricesFromDataset s.chosenDataset prices).result = .error e →
      let r := (loadSelectedDataset s prices).result
      r.chosenDataset = s.chosenDataset ∧ r.ohlcvRows = s.ohlcvRows ∧
      r.datasetLoaded = false ∧
      r.error.truthy = true ∧ r.error = errorMessage e "Failed to load dataset" ∧
      r.loading = false) := by
  constructor
  · intro hl hc hf
    simp [runForecastOnly, hl, hc, hf, errorMessage_truthy]
  · intro hc hp
    simp [loadSelectedDataset, hc, hp, errorMessage_truthy]

/-- Witness for C9: the forecast run and the load fail from the forecasted state with the
server message `model unavailable`. -/
theorem failure_keeps_data_witness :
    ((runForecastOnly forecastedState (.error modelUnavailable) (.ok .null)
        (.ok .null)).result.forecastPreview = forecastedState.forecastPreview ∧
     (runForecastOnly forecastedState (.error modelUnavailable) (.ok .null)
        (.ok .null)).result.datasetLoaded = true ∧
     (runForecastOnly forecastedState (.error modelUnavailable) (.ok .null)
        (.ok .null)).result.error = .str "model unavailable") ∧
    ((loadSelectedDataset forecastedState (.error modelUnavailable)).result.ohlcvRows
        = forecastedState.ohlcvRows ∧
     (loadSelectedDataset forecastedState (.error modelUnavailable)).result.datasetLoaded
        = false ∧
     (loadSelectedDataset forecastedState (.error modelUnavailable)).result.error
        = .str "model unavailable") :=
  have h := failure_keeps_data forecastedState (.error modelUnavailable)
    (.error modelUnavailable) (.ok .null) (.ok .null) modelUnavailable
  ⟨⟨(h.1 rfl rfl rfl).2.2.1, (h.1 rfl rfl rfl).2.2.2.1, (h.1 rfl rfl rfl).2.2.2.2.2.1⟩,
   ⟨(h.2 rfl rfl).2.1, (h.2 rfl rfl).2.2.1, (h.2 rfl rfl).2.2.2.2.1⟩⟩

/-- C9 fails as stated: a failing `loadSelectedDataset` started with the AAPL dataset loaded
leaves `datasetLoaded` false, not as it was. -/
theorem failed_load_resets_loaded_counterexample :
    forecastedState.datasetLoaded = true ∧
    (loadSelectedDataset forecastedState (.error networkError)).result.datasetLoaded = false ∧
    (loadSelectedDataset forecastedState (.error networkError)).result.error
      = .str "Network Error" := by
  refine ⟨rfl, rfl, rfl⟩

/-! ## A forecast preview without a loaded dataset -/

/-- C2, the code at the failing input: mount with the catalog `[aapl]`, select `d1`, load 30
rows, run a forecast that returns `samplePreview`, then load again with the request failing.
Every step starts from an enabled control, and the state reached has the preview still set while
`datasetLoaded` is false. -/
theorem stale_preview_after_failed_load :
    ∃ s, Reachable s ∧ s.forecastPreview = samplePreview ∧ s.forecastPreview ≠ .null ∧
      s.datasetLoaded = false ∧ s.chosenDataset = aapl := by
  have h0 := Reachable.mount (.ok (.arr [aapl]))
  have h1 := Reachable.select (r := ⟨{ (initializeComponent State.initial
      (.ok (.arr [aapl]))).result with chosenDataset := aapl }, []⟩) "d1" h0 rfl
  have h2 := Reachable.load (.ok (.obj [("rows", .arr (List.replicate 30 sampleRow))])) h1 rfl
  have h3 := Reachable.forecast (.ok (.obj [("preview", samplePreview)])) (.ok .null) (.ok .null)
    h2 rfl
  have h4 := Reachable.load (.error networkError) h3 rfl
  refine ⟨_, h4, rfl, ?_, rfl, rfl⟩
  show samplePreview ≠ .null
  simp [samplePreview]

/-! ## The NaN repair -/

/-- C5 (as the code has it): for every textual body that is valid JSON apart from object members
whose value is the bare token `NaN`, with no string literal containing `:\s*NaN`, the inner
`try` of `loadDatasets` parses successfully and gives the value in which each such member is
`null`. -/
theorem parseBody_of_nan_members (s : String) (v : JVal) (h : parseNaNTolerant s = some v) :
    parseBody s = some v :=
  parseText_replaceNaN s v h

/-- Witness for C5: an object body with one `NaN` member. -/
theorem parseBody_of_nan_members_witness :
    containsColonNaN nanObjectBody.data = true ∧
    parseBody nanObjectBody
      = some (.obj [("symbol", .str "AAPL"), ("value", .null)]) :=
  ⟨by decide, parseBody_of_nan_members nanObjectBody
      (.obj [("symbol", .str "AAPL"), ("value", .null)]) rfl⟩

/-- C5 fails as stated: the body `[{"symbol":"AAPL","value": NaN,"history":[1.5,NaN]}]`
contains `: NaN`, but the `NaN` array element is not rewritten, the parse fails and
`loadDatasets` returns the empty array through the parse-failure branch. -/
theorem nan_body_parse_failure_counterexample :
    containsColonNaN nanElementBody.data = true ∧
    replaceNaN nanElementBody
      = nanElementRewritten ∧
    parseBody nanElementBody = none ∧
    loadDatasets (.ok (.str nanElementBody))
      = .ok (.arr []) :=
  ⟨by decide, by decide, rfl, rfl⟩

/-- C6: for every textual body that is a valid JSON array except that some object members have
the bare value `NaN`, and in which no string literal contains `:\s*NaN`, `loadDatasets` returns
the array the text denotes with each such `NaN` read as `null`. -/
theorem loadDatasets_nan_array (s : String) (xs : List JVal)
    (h : parseNaNTolerant s = some (.arr xs)) :
    loadDatasets (.ok (.str s)) = .ok (.arr xs) := by
  have hp : parseBody s = some (.arr xs) := parseText_replaceNaN s _ h
  simp [loadDatasets, hp, JVal.isArray]

/-- Witness for C6: the body `[{"symbol":"AAPL","value": NaN}]` gives
`[{symbol: "AAPL", value: null}]`. -/
theorem loadDatasets_nan_array_witness :
    loadDatasets (.ok (.str nanArrayBody))
      = .ok (.arr [.obj [("symbol", .str "AAPL"), ("value", .null)]]) :=
  loadDatasets_nan_array nanArrayBody
    [.obj [("symbol", .str "AAPL"), ("value", .null)]] rfl

/-! ## The public-endpoint reconciler -/

/-- C11: when a dataset is chosen, the historical request succeeds and `/api/predictions`
returns the sequence `L` of prediction records, the preview set by `fetchPublicEndpoints` has
as `models` the entries `{model, predicted_values, horizon_hours}` of the records of `L`, one
per record and in the order of `L`, with `horizon_hours` the product `forecast_horizon * 24`
of JavaScript numbers. For a whole number of days that product is exactly 24 times the days, as
long as it stays within 53 bits; otherwise it is the nearest double (`0.1 * 24` is
`2.4000000000000004`, `1e308 * 24` is `Infinity`, `-1.5 * 24` is `-36`), and a horizon that is
not a number is converted first (`[]` and `null` to `0`, `"3"` to `3`, `" 0x10 "` to `16`,
a missing horizon, `"abc"`, `[1, 2]` and an object to `NaN`). -/
theorem fetchPublicEndpoints_reshapes (s : State) (h : JVal) (L : List JVal)
    (hchosen : s.chosenDataset.truthy = true) (hL : ∀ p ∈ L, p.nullish = false) :
    (fetchPublicEndpoints s (.ok h) (.ok (.arr L))).result.publicForecast
      = .obj [("symbol", s.chosenDataset.field "symbol"), ("results", .arr L),
          ("preview", .obj [("models", .arr (L.map fun p =>
            .obj [("model", p.field "model"),
                  ("predicted_values", p.field "predicted_values"),
                  ("horizon_hours", times24 (p.field "forecast_horizon"))]))])] ∧
    (L.map fun p => JVal.obj [("model", p.field "model"),
        ("predicted_values", p.field "predicted_values"),
        ("horizon_hours", times24 (p.field "forecast_horizon"))]).length = L.length ∧
    (∀ (neg : Bool) (m e : Nat), m * 10 ^ e * 24 ≤ 2 ^ 53 →
      times24 (.num (.fin neg m (Int.ofNat e))) = .num (.fin neg (m * 10 ^ e * 24) 0)) ∧
    (times24 (.num (.fin false 1 (-1))) = .num (.fin false 24000000000000004 (-16)) ∧
      times24 (.num (.fin false 1 308)) = .num (.inf false) ∧
      times24 (.num (.fin true 15 (-1))) = .num (.fin true 36 0)) ∧
    (times24 (.arr []) = .num (.fin false 0 0) ∧
      times24 (.arr [.num (.fin false 5 0)]) = .num (.fin false 120 0) ∧
      times24 (.arr [.num (.fin false 1 0), .num (.fin false 2 0)]) = .num .nan) ∧
    (times24 (.str "3") = .num (.fin false 72 0) ∧
      times24 (.str " 0x10 ") = .num (.fin false 384 0) ∧
      times24 (.str "-2.5e1") = .num (.fin true 600 0) ∧
      times24 (.str "") = .num (.fin false 0 0) ∧
      times24 (.str "abc") = .num .nan ∧
      times24 (.str "-Infinity") = .num (.inf true)) ∧
    (times24 .undefined = .num .nan ∧
      times24 .null = .num (.fin false 0 0) ∧
      times24 (.bool true) = .num (.fin false 24 0) ∧
      times24 (.obj []) = .num .nan ∧
      times24 (.num .nan) = .num .nan ∧
      times24 (.num (.inf true)) = .num (.inf true) ∧
      times24 (.num (.fin true 0 0)) = .num (.fin true 0 0)) := by
  refine ⟨?_, List.length_map _ _, times24_whole,
    ⟨times24_tenth, times24_overflow, times24_fraction⟩, times24_array, times24_text,
    times24_other⟩
  have hmap : mapPredictions (.arr L) = .ok (.arr (L.map fun p =>
      .obj [("model", p.field "model"), ("predicted_values", p.field "predicted_values"),
            ("horizon_hours", times24 (p.field "forecast_horizon"))])) := by
    simp only [mapPredictions]
    rw [mapM_ok formatPrediction _ L]
    · rfl
    · intro p hp
      simp [formatPrediction, prop_ok p _ (hL p hp), Except.bind, Except.map]
  simp [fetchPublicEndpoints, hchosen, hmap]

/-- Four stored prediction records: horizons of 1 and 3 days, of a tenth of a day, and a record
with no horizon. -/
theorem fetchPublicEndpoints_reshapes_witness :
    (fetchPublicEndpoints forecastedState (.ok .null) (.ok (.arr
        [.obj [("model", .str "ma"), ("predicted_values", .arr [.num (.ofNat 101)]),
               ("forecast_horizon", .num (.ofNat 1))],
         .obj [("model", .str "arima"), ("predicted_values", .arr [.num (.ofNat 102)]),
               ("forecast_horizon", .num (.ofNat 3))],
         .obj [("model", .str "lstm"), ("predicted_values", .arr [.num (.ofNat 103)]),
               ("forecast_horizon", .num (.fin false 1 (-1)))],
         .obj [("model", .str "transformer"),
               ("predicted_values", .arr [.num (.ofNat 104)])]]))).result.publicForecast.field
        "preview"
      = .obj [("models", .arr
        [.obj [("model", .str "ma"), ("predicted_values", .arr [.num (.ofNat 101)]),
               ("horizon_hours", .num (.ofNat 24))],
         .obj [("model", .str "arima"), ("predicted_values", .arr [.num (.ofNat 102)]),
               ("horizon_hours", .num (.ofNat 72))],
         .obj [("model", .str "lstm"), ("predicted_values", .arr [.num (.ofNat 103)]),
               ("horizon_hours", .num (.fin false 24000000000000004 (-16)))],
         .obj [("model", .str "transformer"), ("predicted_values", .arr [.num (.ofNat 104)]),
               ("horizon_hours", .num .nan)]])] :=
  congrArg (fun v => JVal.field v "preview")
    (fetchPublicEndpoints_reshapes forecastedState .null
      [.obj [("model", .str "ma"), ("predicted_values", .arr [.num (.ofNat 101)]),
             ("forecast_horizon", .num (.ofNat 1))],
       .obj [("model", .str "arima"), ("predicted_values", .arr [.num (.ofNat 102)]),
             ("forecast_horizon", .num (.ofNat 3))],
       .obj [("model", .str "lstm"), ("predicted_values", .arr [.num (.ofNat 103)]),
             ("forecast_horizon", .num (.fin false 1 (-1)))],
       .obj [("model", .str "transformer"), ("predicted_values", .arr [.num (.ofNat 104)])]]
      rfl (by intro p hp; simp at hp; rcases hp with rfl | rfl | rfl | rfl <;> rfl)).1

/-- C12: `fetchPublicEndpoints` returns for every outcome of its two requests; it leaves
`ohlcvRows`, `forecastPreview`, `datasetLoaded`, `error` and `loading` (and the chosen dataset
and the models) as they were; and with a dataset chosen, when the historical request fails,
or the predictions request fails, or mapping the predictions payload throws (a payload that is
not a sequence), `publicForecast` is the object `{error: message}` of that first failure, the
predictions request not being sent after a failed historical request. -/
theorem fetchPublicEndpoints_contained (s : State) (hist stored : Response) :
    ((fetchPublicEndpoints s hist stored).result.ohlcvRows = s.ohlcvRows ∧
      (fetchPublicEndpoints s hist stored).result.forecastPreview = s.forecastPreview ∧
      (fetchPublicEndpoints s hist stored).result.datasetLoaded = s.datasetLoaded ∧
      (fetchPublicEndpoints s hist stored).result.error = s.error ∧
      (fetchPublicEndpoints s hist stored).result.loading = s.loading ∧
      (fetchPublicEndpoints s hist stored).result.chosenDataset = s.chosenDataset ∧
      (fetchPublicEndpoints s hist stored).result.models = s.models) ∧
    (s.chosenDataset.truthy = true →
      (∀ e, hist = .error e →
        (fetchPublicEndpoints s hist stored).result.publicForecast
          = .obj [("error", (serverMessage e).or (.str e.message))] ∧
        (fetchPublicEndpoints s hist stored).requests
          = [.getHistorical (s.chosenDataset.field "symbol")]) ∧
      (∀ h e, hist = .ok h → stored = .error e →
        (fetchPublicEndpoints s hist stored).result.publicForecast
          = .obj [("error", (serverMessage e).or (.str e.message))]) ∧
      (∀ h data e, hist = .ok h → stored = .ok data → mapPredictions data = .error e →
        (fetchPublicEndpoints s hist stored).result.publicForecast
          = .obj [("error", (serverMessage e).or (.str e.message))]) ∧
      (∀ h kvs, hist = .ok h → stored = .ok (.obj kvs) →
        (fetchPublicEndpoints s hist stored).result.publicForecast
          = .obj [("error", .str "storedPredictions.data.map is not a function")])) := by
  constructor
  · unfold fetchPublicEndpoints
    split
    · exact ⟨rfl, rfl, rfl, rfl, rfl, rfl, rfl⟩
    · cases hist with
      | error e => exact ⟨rfl, rfl, rfl, rfl, rfl, rfl, rfl⟩
      | ok h =>
        cases stored with
        | error e => exact ⟨rfl, rfl, rfl, rfl, rfl, rfl, rfl⟩
        | ok data =>
          simp only []
          split <;> exact ⟨rfl, rfl, rfl, rfl, rfl, rfl, rfl⟩
  · intro hchosen
    refine ⟨?_, ?_, ?_, ?_⟩
    · rintro e rfl
      simp [fetchPublicEndpoints, hchosen, publicError]
    · rintro h e rfl rfl
      simp [fetchPublicEndpoints, hchosen, publicError]
    · rintro h data e rfl rfl hmap
      simp [fetchPublicEndpoints, hchosen, publicError, hmap]
    · rintro h kvs rfl rfl
      have hp : publicError { message := "storedPredictions.data.map is not a function" }
          = .obj [("error", .str "storedPredictions.data.map is not a function")] := rfl
      simp [fetchPublicEndpoints, hchosen, mapPredictions, hp]

/-- Witness for C12: from the forecasted state, the historical request fails with the server
message `model unavailable`; and it succeeds while the predictions payload is an object. -/
theorem fetchPublicEndpoints_contained_witness :
    ((fetchPublicEndpoints forecastedState (.error modelUnavailable) (.ok .null)).result.publicForecast
        = .obj [("error", .str "model unavailable")] ∧
      (fetchPublicEndpoints forecastedState (.error modelUnavailable) (.ok .null)).requests
        = [.getHistorical (.str "AAPL")]) ∧
    (fetchPublicEndpoints forecastedState (.ok .null) (.ok (.obj []))).result.publicForecast
      = .obj [("error", .str "storedPredictions.data.map is not a function")] :=
  ⟨((fetchPublicEndpoints_contained forecastedState (.error modelUnavailable) (.ok .null)).2
      rfl).1 modelUnavailable rfl,
   ((fetchPublicEndpoints_contained forecastedState (.ok .null) (.ok (.obj []))).2
      rfl).2.2.2 .null [] rfl rfl⟩

/-! ## The candlestick trace -/

/-- C13: the candlestick trace of a row sequence and a selected dataset is the empty object
when the sequence is empty or no dataset is selected; otherwise, the rows being records, its
`x`, `open`, `high`, `low` and `close` are the `date`, `open`, `high`, `low` and `close` of the
rows, entry by entry in input order, each of the length of the row sequence. -/
theorem candlestick_trace (rows : List JVal) (dataset : JVal) :
    (rows = [] ∨ dataset.truthy = false → candlestick (.arr rows) dataset = .ok (.obj [])) ∧
    (rows ≠ [] → dataset.truthy = true → (∀ r ∈ rows, r.nullish = false) →
      candlestick (.arr rows) dataset
        = .ok (.obj [("x", .arr (rows.map fun r => r.field "date")),
            ("open", .arr (rows.map fun r => r.field "open")),
            ("high", .arr (rows.map fun r => r.field "high")),
            ("low", .arr (rows.map fun r => r.field "low")),
            ("close", .arr (rows.map fun r => r.field "close")),
            ("type", .str "candlestick"),
            ("name", .str (toStr (dataset.field "symbol") ++ " OHLCV"))]) ∧
      (rows.map fun r => r.field "date").length = rows.length ∧
      (rows.map fun r => r.field "open").length = rows.length ∧
      (rows.map fun r => r.field "high").length = rows.length ∧
      (rows.map fun r => r.field "low").length = rows.length ∧
      (rows.map fun r => r.field "close").length = rows.length ∧
      ∀ i (hi : i < rows.length),
        (rows.map fun r => r.field "date")[i]? = some (rows[i].field "date") ∧
        (rows.map fun r => r.field "open")[i]? = some (rows[i].field "open") ∧
        (rows.map fun r => r.field "high")[i]? = some (rows[i].field "high") ∧
        (rows.map fun r => r.field "low")[i]? = some (rows[i].field "low") ∧
        (rows.map fun r => r.field "close")[i]? = some (rows[i].field "close")) := by
  refine ⟨(candlestick_like rows dataset).1, fun hne hd hrows =>
    ⟨(candlestick_like rows dataset).2 hne hd hrows, by simp, by simp, by simp, by simp,
      by simp, ?_⟩⟩
  intro i hi
  simp [List.getElem?_map, List.getElem?_eq_getElem hi]

/-- Witness for C13: two rows of the AAPL dataset. -/
theorem candlestick_trace_witness :
    candlestick (.arr []) aapl = .ok (.obj []) ∧
    candlestick (.arr [sampleRow, sampleRow]) aapl
      = .ok (.obj [("x", .arr [.str "2024-01-02", .str "2024-01-02"]),
          ("open", .arr [.num (.ofNat 100), .num (.ofNat 100)]),
          ("high", .arr [.num (.ofNat 110), .num (.ofNat 110)]),
          ("low", .arr [.num (.ofNat 90), .num (.ofNat 90)]),
          ("close", .arr [.num (.ofNat 105), .num (.ofNat 105)]),
          ("type", .str "candlestick"), ("name", .str "AAPL OHLCV")]) :=
  ⟨(candlestick_trace [] aapl).1 (Or.inl rfl),
   ((candlestick_trace [sampleRow, sampleRow] aapl).2 (by simp) rfl
      (by intro r hr; simp at hr; subst hr; rfl)).1⟩

/-! ## The forecast traces -/

/-- C14 (as the code has it): `forecastTraces` is the empty sequence for the `null` preview;
for a non-null preview whose `models` is a sequence of entries it is exactly one trace per
entry, in order, the trace of entry `m` having `x = preview.dates` and
`y = m.predicted_values`, whatever the lengths of the two: no comparison of lengths is made. -/
theorem forecastTraces_one_per_model (preview : JVal) (ms : List JVal) :
    forecastTraces .null = .ok (.arr []) ∧
    (preview.truthy = true → preview.field "models" = .arr ms →
      (∀ m ∈ ms, m.nullish = false) →
      ∃ ts, forecastTraces preview = .ok (.arr ts) ∧ ts.length = ms.length ∧
        ∀ i (hi : i < ms.length),
          ∃ t, ts[i]? = some t ∧ t.field "x" = preview.field "dates" ∧
            t.field "y" = ms[i].field "predicted_values") := by
  refine ⟨rfl, fun hp hms h => ⟨_, forecastTraces_ok preview ms hp hms h, by simp, ?_⟩⟩
  intro i hi
  refine ⟨_, by rw [List.getElem?_map, List.getElem?_eq_getElem hi]; rfl, ?_, ?_⟩ <;>
    simp [JVal.field, List.lookup]

/-- Witness for C14: the preview with the single model `ma` over 24 dates. -/
theorem forecastTraces_one_per_model_witness :
    ∃ ts, forecastTraces samplePreview = .ok (.arr ts) ∧ ts.length = 1 ∧
      ∀ i (hi : i < [JVal.obj [("model", .str "ma"),
          ("predicted_values", .arr (List.replicate 24 (.num (.ofNat 101))))]].length),
        ∃ t, ts[i]? = some t ∧ t.field "x" = samplePreview.field "dates" ∧
          t.field "y" = ([JVal.obj [("model", .str "ma"),
            ("predicted_values", .arr (List.replicate 24 (.num (.ofNat 101))))]][i]).field
              "predicted_values" :=
  (forecastTraces_one_per_model samplePreview
    [.obj [("model", .str "ma"),
      ("predicted_values", .arr (List.replicate 24 (.num (.ofNat 101))))]]).2 rfl rfl
    (by intro m hm; simp at hm; subst hm; rfl)

/-- C14 fails as stated: a preview over two dates whose single model has one predicted value
is not flagged; `forecastTraces` returns its trace like any other, with two `x` entries and
one `y` entry. -/
theorem forecastTraces_mismatch_counterexample :
    forecastTraces (.obj [("dates", .arr [.str "2024-02-01", .str "2024-02-02"]),
        ("models", .arr [.obj [("model", .str "ma"),
          ("predicted_values", .arr [.num (.ofNat 101)])]])])
      = .ok (.arr [.obj [("x", .arr [.str "2024-02-01", .str "2024-02-02"]),
          ("y", .arr [.num (.ofNat 101)]), ("type", .str "scatter"),
          ("mode", .str "lines+markers"), ("name", .str "Forecast: ma (undefinedh)")]]) := by
  rfl

/-! ## The name of a forecast trace -/

/-- C15 (as the code has it): for a non-null preview and a model entry `m`, the trace name is
`Forecast: <m.model> (<h>h)` where `h` is the preview-level `horizon_hours` whenever that is
truthy (a number other than 0), and `m.horizon_hours` otherwise: when the preview carries none,
and also when it carries 0. -/
theorem trace_name_horizon (preview x m : JVal) (hm : m.nullish = false) :
    (∃ t, forecastTrace preview x m = .ok t ∧
      t.field "name" = .str (traceName preview m)) ∧
    ((preview.field "horizon_hours").truthy = true →
      traceName preview m
        = "Forecast: " ++ toStr (m.field "model") ++ " (" ++
            toStr (preview.field "horizon_hours") ++ "h)") ∧
    ((preview.field "horizon_hours").truthy = false →
      traceName preview m
        = "Forecast: " ++ toStr (m.field "model") ++ " (" ++
            toStr (m.field "horizon_hours") ++ "h)") := by
  refine ⟨⟨_, forecastTrace_ok preview x m hm, ?_⟩, ?_, ?_⟩
  · simp [JVal.field, List.lookup]
  · intro h
    simp [traceName, JVal.or, h]
  · intro h
    simp [traceName, JVal.or, h]

/-- Witness for C15: a preview-level horizon of 24 hours wins over the 72 of the model;
without a preview-level horizon the 72 of the model is shown. -/
theorem trace_name_horizon_witness :
    traceName (.obj [("horizon_hours", .num (.ofNat 24))])
        (.obj [("model", .str "ma"), ("horizon_hours", .num (.ofNat 72))])
      = "Forecast: ma (24h)" ∧
    traceName (.obj [("dates", .arr [])])
        (.obj [("model", .str "ma"), ("horizon_hours", .num (.ofNat 72))])
      = "Forecast: ma (72h)" :=
  ⟨(trace_name_horizon (.obj [("horizon_hours", .num (.ofNat 24))]) .null
      (.obj [("model", .str "ma"), ("horizon_hours", .num (.ofNat 72))]) rfl).2.1 rfl,
   (trace_name_horizon (.obj [("dates", .arr [])]) .null
      (.obj [("model", .str "ma"), ("horizon_hours", .num (.ofNat 72))]) rfl).2.2 rfl⟩

/-- C15 fails as stated: with the preview-level `horizon_hours` equal to 0 and the model's equal
to 24, the name shows the model's 24, not the preview's 0. -/
theorem trace_name_zero_horizon_counterexample :
    traceName (.obj [("horizon_hours", .num (.ofNat 0))])
        (.obj [("model", .str "ma"), ("horizon_hours", .num (.ofNat 24))])
      = "Forecast: ma (24h)" ∧
    traceName (.obj [("horizon_hours", .num (.ofNat 0))])
        (.obj [("model", .str "ma"), ("horizon_hours", .num (.ofNat 24))])
      ≠ "Forecast: ma (0h)" := by
  decide

/-! ## The traces handed to the chart -/

/-- C18: in a state whose rows are a sequence of records and whose preview is `null` or has a
sequence `ms` of model entries, both memos evaluate, and the trace list handed to the chart is
empty when no dataset is chosen or the dataset is not loaded, and otherwise is the candlestick
trace followed by the forecast traces, `1 + ms.length` traces in all (`ms` empty for the `null`
preview). -/
theorem plotData_traces (s : State) (rows ms : List JVal)
    (hrows : s.ohlcvRows = .arr rows) (hr : ∀ r ∈ rows, r.nullish = false)
    (hp : (s.forecastPreview = .null ∧ ms = []) ∨
      (s.forecastPreview.truthy = true ∧ s.forecastPreview.field "models" = .arr ms ∧
        ∀ m ∈ ms, m.nullish = false)) :
    ∃ c ts, candlestick s.ohlcvRows s.chosenDataset = .ok c ∧
      forecastTraces s.forecastPreview = .ok (.arr ts) ∧ ts.length = ms.length ∧
      modelCount s.forecastPreview = ms.length ∧
      (s.chosenDataset.truthy = false ∨ s.datasetLoaded = false → plotData s = .ok (.arr [])) ∧
      (s.chosenDataset.truthy = true → s.datasetLoaded = true →
        plotData s = .ok (.arr (c :: ts)) ∧ (c :: ts).length = 1 + ms.length) := by
  have hc : ∃ c, candlestick s.ohlcvRows s.chosenDataset = .ok c := by
    rw [hrows]
    by_cases h : rows = [] ∨ s.chosenDataset.truthy = false
    · exact ⟨_, (candlestick_like rows s.chosenDataset).1 h⟩
    · simp only [not_or, Bool.not_eq_false] at h
      exact ⟨_, ((candlestick_like rows s.chosenDataset).2 h.1 h.2 hr)⟩
  have hf : ∃ ts, forecastTraces s.forecastPreview = .ok (.arr ts) ∧ ts.length = ms.length ∧
      modelCount s.forecastPreview = ms.length := by
    rcases hp with ⟨h1, h2⟩ | ⟨h1, h2, h3⟩
    · subst h2
      rw [h1]
      exact ⟨[], rfl, rfl, rfl⟩
    · refine ⟨_, forecastTraces_ok _ ms h1 h2 h3, by simp, ?_⟩
      simp [modelCount, h1, h2]
  obtain ⟨c, hc⟩ := hc
  obtain ⟨ts, hts, hlen, hcount⟩ := hf
  refine ⟨c, ts, hc, hts, hlen, hcount, ?_, ?_⟩
  · intro h
    simp only [plotData, hc, hts, Except.bind]
    rcases h with h | h <;> simp [h]
  · intro h1 h2
    simp only [plotData, hc, hts, Except.bind, h1, h2]
    refine ⟨rfl, ?_⟩
    simp only [List.length_cons, hlen]
    omega

/-- Witness for C18: 30 loaded rows for AAPL and the preview with the single model `ma` over
24 dates give exactly 2 traces, the candlestick and one forecast trace. -/
theorem plotData_traces_witness :
    ∃ c ts, candlestick (.arr (List.replicate 30 sampleRow)) aapl = .ok c ∧
      forecastTraces samplePreview = .ok (.arr ts) ∧ ts.length = 1 ∧
      plotData { forecastedState with forecastPreview := samplePreview } = .ok (.arr (c :: ts)) ∧
      (c :: ts).length = 2 :=
  have h := plotData_traces { forecastedState with forecastPreview := samplePreview }
    (List.replicate 30 sampleRow)
    [.obj [("model", .str "ma"),
      ("predicted_values", .arr (List.replicate 24 (.num (.ofNat 101))))]]
    rfl (by intro r hr; rw [List.eq_of_mem_replicate hr]; rfl)
    (Or.inr ⟨rfl, rfl, by intro m hm; simp at hm; subst hm; rfl⟩)
  match h with
  | ⟨c, ts, hc, hts, hlen, _, _, hplot⟩ => ⟨c, ts, hc, hts, hlen, (hplot rfl rfl).1, (hplot rfl rfl).2⟩

/-! ## The message shown for a failed request -/

/-- C16: when the request of `loadSelectedDataset`, of `runForecastOnly`, or a call of the
`Promise.all` of `refresh` fails with the error `e`, the `error` shown is the `error` field of
the error response body whenever that is present (truthy); otherwise the message of `e` when it
has one; and otherwise the fallback of the handler, `Failed to load dataset`,
`Failed to run forecast` and `Failed to load` respectively. -/
theorem error_message_priority (s : State) (e : JsError) (prices forecast hist stored : Response)
    (first : Bool) :
    (s.chosenDataset.truthy = true →
      (loadPricesFromDataset s.chosenDataset prices).result = .error e →
      (loadSelectedDataset s prices).result.error = errorMessage e "Failed to load dataset") ∧
    (s.datasetLoaded = true → s.chosenDataset.truthy = true →
      (runForecast s forecast).result = .error e →
      (runForecastOnly s forecast hist stored).result.error
        = errorMessage e "Failed to run forecast") ∧
    (s.chosenDataset.truthy = true →
      promiseAll (loadPricesFromDataset s.chosenDataset prices).result
        (runForecast s forecast).result first = .error e →
      (refresh s prices forecast first hist stored).result.error
        = errorMessage e "Failed to load") ∧
    (∀ fallback, (serverMessage e).truthy = true → errorMessage e fallback = serverMessage e) ∧
    (∀ fallback, (serverMessage e).truthy = false → e.message ≠ "" →
      errorMessage e fallback = .str e.message) ∧
    (∀ fallback, (serverMessage e).truthy = false → e.message = "" →
      errorMessage e fallback = .str fallback) := by
  refine ⟨?_, ?_, ?_, ?_, ?_, ?_⟩
  · intro hc hp
    simp [loadSelectedDataset, hc, hp]
  · intro hl hc hf
    simp [runForecastOnly, hl, hc, hf]
  · intro hc hp
    simp [refresh, hc, hp]
  · intro fallback h
    rw [errorMessage, or_of_truthy _ _ h, or_of_truthy _ _ h]
  · intro fallback h hm
    have hs : (JVal.str e.message).truthy = true := by simp [JVal.truthy, hm]
    rw [errorMessage, or_of_falsy _ _ h, or_of_truthy _ _ hs]
  · intro fallback h hm
    have hs : (JVal.str e.message).truthy = false := by simp [JVal.truthy, hm]
    rw [errorMessage, or_of_falsy _ _ h, or_of_falsy _ _ hs]

/-- Witness for C16: a load answered 500 with `{"error": "model unavailable"}` shows the server
message; a forecast run that got no response shows `Network Error`; a refresh whose forecast
call fails with no message at all shows `Failed to load`. -/
theorem error_message_priority_witness :
    (loadSelectedDataset forecastedState (.error modelUnavailable)).result.error
      = .str "model unavailable" ∧
    (runForecastOnly forecastedState (.error networkError) (.ok .null) (.ok .null)).result.error
      = .str "Network Error" ∧
    (refresh forecastedState (.ok (.obj [])) (.error { message := "" }) false (.ok .null)
        (.ok .null)).result.error = .str "Failed to load" :=
  ⟨((error_message_priority forecastedState modelUnavailable (.error modelUnavailable)
        (.ok .null) (.ok .null) (.ok .null) false).1 rfl rfl).trans
      ((error_message_priority forecastedState modelUnavailable (.error modelUnavailable)
        (.ok .null) (.ok .null) (.ok .null) false).2.2.2.1 "Failed to load dataset" rfl),
   ((error_message_priority forecastedState networkError (.ok .null) (.error networkError)
        (.ok .null) (.ok .null) false).2.1 rfl rfl rfl).trans
      ((error_message_priority forecastedState networkError (.ok .null) (.error networkError)
        (.ok .null) (.ok .null) false).2.2.2.2.1 "Failed to run forecast" rfl (by decide)),
   ((error_message_priority forecastedState { message := "" } (.ok (.obj []))
        (.error { message := "" }) (.ok .null) (.ok .null) false).2.2.1 rfl rfl).trans
      ((error_message_priority forecastedState { message := "" } (.ok (.obj []))
        (.error { message := "" }) (.ok .null) (.ok .null) false).2.2.2.2.2 "Failed to load"
          rfl rfl)⟩

/-! ## The catalog on mount -/

/-- C17: for every outcome of the catalog request, `initializeComponent` sends that one
request and ends with `datasets` the array returned by `loadDatasets`, `loading` false, and
`error` the message `No datasets found. Please go to the Data Generator page to create a
dataset first.` when that array is empty and `null` when it is not; `error` is never one of
the generic messages. -/
theorem initializeComponent_outcome (s : State) (resp : Response) :
    ∃ xs, loadDatasets resp = .ok (.arr xs) ∧
      (initializeComponent s resp).requests = [.getDatasets] ∧
      (initializeComponent s resp).result.datasets = .arr xs ∧
      (initializeComponent s resp).result.loading = false ∧
      (initializeComponent s resp).result.error
        = (if xs.isEmpty then .str noDatasetsMessage else .null) ∧
      (initializeComponent s resp).result.error ≠ .str "Failed to load datasets" ∧
      (initializeComponent s resp).result.error
        ≠ .str "Failed to load datasets - invalid data format" := by
  obtain ⟨xs, hxs⟩ := loadDatasets_array resp
  refine ⟨xs, hxs, ?_⟩
  cases xs with
  | nil =>
    simp only [initializeComponent, hxs, JVal.isArray, isEmptyArray, List.length_nil,
      beq_self_eq_true, if_true, List.isEmpty_nil]
    refine ⟨trivial, trivial, trivial, trivial, ?_, ?_⟩ <;>
      simp only [ne_eq, JVal.str.injEq] <;> decide
  | cons x xs =>
    have hne : ((x :: xs).length == 0) = false := by simp
    simp only [initializeComponent, hxs, JVal.isArray, isEmptyArray, hne, if_true,
      Bool.false_eq_true, if_false, List.isEmpty_cons]
    refine ⟨trivial, trivial, trivial, trivial, ?_, ?_⟩ <;> simp

/-! ## The model toggle -/

/-- C19: on a list of models without duplicates, a click on the button of `id` flips the
membership of `id` (the list without `id` when it was in, the list with `id` appended when it
was not), keeps the membership of every other id, and gives a list without duplicates; every
list reached from `['ma', 'arima', 'lstm']` by clicks has no duplicates, and two clicks on the
same button give back the same set of models. -/
theorem toggleModel_flips (models : List String) (id : String) (hnd : models.Nodup) :
    (id ∈ toggleModel models id ↔ id ∉ models) ∧
    (∀ x, x ≠ id → (x ∈ toggleModel models id ↔ x ∈ models)) ∧
    (id ∈ models → toggleModel models id = models.filter fun x => x != id) ∧
    (id ∉ models → toggleModel models id = models ++ [id]) ∧
    (toggleModel models id).Nodup ∧
    (∀ x, x ∈ toggleModel (toggleModel models id) id ↔ x ∈ models) ∧
    (∀ ids : List String, (ids.foldl toggleModel State.initial.models).Nodup) := by
  refine ⟨?_, ?_, ?_, ?_, toggleUpdater_nodup _ _ _ hnd, ?_, ?_⟩
  · rw [mem_toggleModel]
    simp
  · intro x hx
    rw [mem_toggleModel]
    simp [hx]
  · intro h
    simp [toggleModel, toggleUpdater, h]
  · intro h
    have hnd' : (models ++ [id]).Nodup := by
      rw [List.nodup_append]
      refine ⟨hnd, List.nodup_singleton _, ?_⟩
      intro a ha hb
      rw [List.mem_singleton] at hb
      exact h (hb ▸ ha)
    simp [toggleModel, toggleUpdater, h, arrayFromSet_of_nodup _ hnd']
  · intro x
    rw [mem_toggleModel, mem_toggleModel, mem_toggleModel]
    by_cases hx : x = id
    · subst hx
      by_cases hm : x ∈ models <;> simp [hm]
    · simp [hx]
  · intro ids
    have key : ∀ (ms : List String), ms.Nodup → (ids.foldl toggleModel ms).Nodup := by
      induction ids with
      | nil => exact fun ms h => h
      | cons i is ih => exact fun ms h => ih _ (toggleUpdater_nodup _ _ _ h)
    exact key _ (by decide)

/-- Witness for C19: clicks on `ma` and on `transformer` from the initial models. -/
theorem toggleModel_flips_witness :
    toggleModel ["ma", "arima", "lstm"] "ma" = ["arima", "lstm"] ∧
    toggleModel ["ma", "arima", "lstm"] "transformer" = ["ma", "arima", "lstm", "transformer"] ∧
    (toggleModel ["ma", "arima", "lstm"] "ma").Nodup ∧
    (∀ x, x ∈ toggleModel (toggleModel ["ma", "arima", "lstm"] "ma") "ma"
      ↔ x ∈ ["ma", "arima", "lstm"]) :=
  have h := toggleModel_flips ["ma", "arima", "lstm"] "ma" (by decide)
  have h' := toggleModel_flips ["ma", "arima", "lstm"] "transformer" (by decide)
  ⟨h.2.2.1 (by decide), h'.2.2.2.1 (by decide), h.2.2.2.2.1, h.2.2.2.2.2.1⟩

/-! ## Submitting the generator form -/

/-- C20, the code at the failing input: `handleSubmit` sets `isGenerating` and then throws
`setResult is not defined` at line 25, before its `try`, for every form and every outcome of
the request; submitting the form with days `0` sends no request, leaves `genOutcome` as it was
(`null`) and leaves `isGenerating` true. -/
theorem handleSubmit_throws_before_try :
    (∀ (s : GeneratorState) (resp : Response),
      handleSubmit s resp
        = ⟨{ s with isGenerating := true }, [], some { message := "setResult is not defined" }⟩) ∧
    invalidDays (parseInt "0") = true ∧
    (handleSubmit { GeneratorState.initial with
        generatorForm := { symbol := "AAPL", exchange := "NASDAQ", days := "0" } }
      (.ok .null)).requests = [] ∧
    (handleSubmit { GeneratorState.initial with
        generatorForm := { symbol := "AAPL", exchange := "NASDAQ", days := "0" } }
      (.ok .null)).state.genOutcome = .null ∧
    (handleSubmit { GeneratorState.initial with
        generatorForm := { symbol := "AAPL", exchange := "NASDAQ", days := "0" } }
      (.ok .null)).state.isGenerating = true :=
  ⟨fun _ _ => rfl, by decide, rfl, rfl, rfl⟩

end Fintech
